import Mathlib

/-!
Verification of the figma-token-sync extraction-and-normalization pipeline.

The TypeScript source (`src/extractors/figma-extractor.ts`,
`src/transformers/token-transformer.ts`, `src/types.ts`) is shallowly
embedded below: JavaScript strings become `String`/`List Char`,
JavaScript numbers become exact rationals `ℚ`, JavaScript objects used
as ordered maps become association lists with insert-or-update-in-place
semantics, and optional/nullable fields become `Option`.
-/

namespace FigmaSync

/-! ## Name tokenization (`tokenizeName`, figma-extractor.ts lines 269-277)

Each regex replacement of the source chain is modelled by one function
on `List Char`.  JavaScript `\s` whitespace is modelled by the common
ASCII whitespace characters. -/

/-- Characters matched by the JavaScript `\s` class (ASCII part). -/
def isJsWs (c : Char) : Bool :=
  c = ' ' || c = '\t' || c = '\n' || c = '\r' || c = '\x0b' || c = '\x0c'

/-- Worker for `collapseRuns`: `inRun` records whether the previous
character belonged to the class (so the replacement character was already
emitted for the current run). -/
def collapseRunsAux (p : Char → Bool) (r : Char) : Bool → List Char → List Char
  | _, [] => []
  | inRun, c :: rest =>
    if p c then
      if inRun then collapseRunsAux p r true rest
      else r :: collapseRunsAux p r true rest
    else c :: collapseRunsAux p r false rest

/-- A global regex replacement of a one-or-more character-class repetition
by the single character `r`: each maximal run of characters satisfying `p`
is replaced by one `r`. -/
def collapseRuns (p : Char → Bool) (r : Char) (l : List Char) : List Char :=
  collapseRunsAux p r false l

/-- Model of `.toLowerCase()` (character-wise). -/
def jsLower (l : List Char) : List Char := l.map Char.toLower

/-- Model of the global replacement of `/` by `-`. -/
def replaceSlash (l : List Char) : List Char :=
  l.map fun c => if c = '/' then '-' else c

/-- Model of the global replacement of whitespace runs by one hyphen. -/
def collapseWs (l : List Char) : List Char := collapseRuns isJsWs '-' l

/-- Keeps exactly the characters of the class `[a-z0-9-]`. -/
def isKeyChar (c : Char) : Bool :=
  ('a' ≤ c && c ≤ 'z') || ('0' ≤ c && c ≤ '9') || c = '-'

/-- Model of the removal of every character outside `[a-z0-9-]`. -/
def stripNonKey (l : List Char) : List Char := l.filter isKeyChar

/-- The global replacement of every run of hyphens by a single hyphen. -/
def collapseHyphens (l : List Char) : List Char := collapseRuns (· = '-') '-' l

/-- Model of the trim regex replacement: removes the hyphen at position 0 (if any)
and the hyphen at the last position (if any); the regex can match at most
once at each of those two positions. -/
def trimHyphens (l : List Char) : List Char :=
  let l₁ := match l with
    | '-' :: rest => rest
    | other => other
  (match l₁.reverse with
    | '-' :: rest => rest
    | other => other).reverse

/-- The function `tokenizeName` (figma-extractor.ts lines 269-277): the chain of the six
replacements, in source order. -/
def tokenizeName (name : String) : String :=
  ⟨trimHyphens (collapseHyphens (stripNonKey (collapseWs (replaceSlash (jsLower name.data)))))⟩

/-! ## Color conversion (`figmaColorToHex` / `figmaColorToRgba`,
figma-extractor.ts lines 279-292) -/

/-- Model of `Math.round` on the (non-negative) rationals this pipeline feeds it:
round half upward, `⌊q + 1/2⌋`.  (`Rat.floor` is the computable floor of
the rational field; see `jsRound_eq_floor`.) -/
def jsRound (q : ℚ) : ℤ := Rat.floor (q + 1/2)

/-- Lowercase hexadecimal digit for `n < 16`. -/
def hexDigitChar (n : ℕ) : Char :=
  if n < 10 then Char.ofNat (48 + n) else Char.ofNat (87 + n)

/-- Hex digit list of a natural number, most significant first
(`Number.prototype.toString(16)` for non-negative integers; the standard
library's base-16 digits are the same lowercase characters). -/
def natToHexDigits (n : ℕ) : List Char := Nat.toDigits 16 n

/-- Model of `i.toString(16)` for an integer (negative integers get a sign). -/
def intToHexString (i : ℤ) : String :=
  if i < 0 then "-" ++ ⟨natToHexDigits i.natAbs⟩ else ⟨natToHexDigits i.toNat⟩

/-- Model of `.padStart(2, (0-character))`. -/
def padStart2 (s : String) : String :=
  if s.length < 2 then ⟨List.replicate (2 - s.length) '0' ++ s.data⟩ else s

/-- A Figma color: unit-interval channels, optional alpha (`types.ts`). -/
structure FigmaColor where
  r : ℚ
  g : ℚ
  b : ℚ
  a : Option ℚ := none
  deriving Repr, DecidableEq

/-- The function `figmaColorToHex` (figma-extractor.ts lines 279-284). -/
def figmaColorToHex (color : FigmaColor) : String :=
  let r := jsRound (color.r * 255)
  let g := jsRound (color.g * 255)
  let b := jsRound (color.b * 255)
  "#" ++ padStart2 (intToHexString r) ++ padStart2 (intToHexString g)
      ++ padStart2 (intToHexString b)

/-- Decimal digit characters of a natural number fraction `num/den`
(long division), up to `fuel` digits, stopping at remainder 0. -/
def fracDigits (num den : ℕ) : ℕ → List Char
  | 0 => []
  | fuel + 1 =>
    if num = 0 then []
    else Char.ofNat (48 + num * 10 / den) :: fracDigits (num * 10 % den) den fuel

/-- Rendering of a non-negative rational the way JavaScript prints the
numbers occurring here: no fractional part for integers, else a decimal
expansion (at most 17 digits, enough for every value a double prints). -/
def numStrNN (q : ℚ) : String :=
  let n := q.num.toNat
  let d := q.den
  if n % d = 0 then toString (n / d)
  else toString (n / d) ++ "." ++ ⟨fracDigits (n % d) d 17⟩

/-- JavaScript number-to-string rendering for the rationals of this model. -/
def numStr (q : ℚ) : String :=
  if q < 0 then "-" ++ numStrNN (-q) else numStrNN q

/-- The function `figmaColorToRgba` (figma-extractor.ts lines 286-292). -/
def figmaColorToRgba (color : FigmaColor) : String :=
  let r := jsRound (color.r * 255)
  let g := jsRound (color.g * 255)
  let b := jsRound (color.b * 255)
  let a := color.a.getD 1
  "rgba(" ++ numStr r ++ ", " ++ numStr g ++ ", " ++ numStr b ++ ", " ++ numStr a ++ ")"

/-! ## Figma API data model (`types.ts` and the dynamic shapes the
extractor reads).  JavaScript objects used as ordered string-keyed maps
are association lists; assignment `obj[k] = v` updates an existing key in
place (keeping its position) or appends a new one. -/

/-- A fill layer: optional solid color and optional layer opacity. -/
structure Fill where
  color : Option FigmaColor := none
  opacity : Option ℚ := none
  deriving Repr, DecidableEq

/-- A Figma effect (`types.ts`): type string, optional color and offset,
radius (always present), optional spread. -/
structure FigmaEffect where
  type : String
  color : Option FigmaColor := none
  offset : Option (ℚ × ℚ) := none
  radius : ℚ
  spread : Option ℚ := none
  deriving Repr, DecidableEq

/-- The font properties carried by a text node (`FigmaTextStyle`). -/
structure FigmaTextStyle where
  fontFamily : String
  fontSize : ℚ
  fontWeight : ℚ
  lineHeightPx : ℚ
  letterSpacing : ℚ
  deriving Repr, DecidableEq

/-- A bounding box (`absoluteBoundingBox`). -/
structure Rect where
  x : ℚ := 0
  y : ℚ := 0
  width : ℚ
  height : ℚ
  deriving Repr, DecidableEq

/-- A node of the Figma document tree.  `styles` is the node's own
style-bindings map (style slot ↦ style identifier), in entry order. -/
inductive FigmaNode where
  | node (name : Option String) (styles : List (String × String))
      (fills : List Fill) (effects : List FigmaEffect)
      (textStyle : Option FigmaTextStyle) (absoluteBoundingBox : Option Rect)
      (children : List FigmaNode)
  deriving Repr

def FigmaNode.name : FigmaNode → Option String
  | .node n _ _ _ _ _ _ => n

def FigmaNode.styles : FigmaNode → List (String × String)
  | .node _ s _ _ _ _ _ => s

def FigmaNode.fills : FigmaNode → List Fill
  | .node _ _ f _ _ _ _ => f

def FigmaNode.effects : FigmaNode → List FigmaEffect
  | .node _ _ _ e _ _ _ => e

def FigmaNode.textStyle : FigmaNode → Option FigmaTextStyle
  | .node _ _ _ _ t _ _ => t

def FigmaNode.absoluteBoundingBox : FigmaNode → Option Rect
  | .node _ _ _ _ _ b _ => b

def FigmaNode.children : FigmaNode → List FigmaNode
  | .node _ _ _ _ _ _ c => c

/-- A published style entry from the styles endpoint. -/
structure Style where
  key : String
  name : String
  style_type : String
  description : Option String := none
  node_id : String
  deriving Repr, DecidableEq

/-- A Figma variable: resolved type, display name, per-mode values
(ordered map mode-id ↦ value; only color values are consumed here). -/
structure Variable where
  resolvedType : String
  name : String
  description : Option String := none
  valuesByMode : List (String × FigmaColor) := []
  deriving Repr, DecidableEq

/-- The file endpoint's response: document tree, display name, and the
optional top-level variables collection (id ↦ variable, ordered). -/
structure FileData where
  document : FigmaNode
  name : String := ""
  «variables» : Option (List (String × Variable)) := none

/-! ## Ordered-map primitive -/

/-- JavaScript object assignment `obj[k] = v` on an association list:
replaces the value at an existing key in place, else appends. -/
def recInsert (k : String) (v : α) : List (String × α) → List (String × α)
  | [] => [(k, v)]
  | (k', v') :: rest =>
    if k' = k then (k, v) :: rest else (k', v') :: recInsert k v rest

/-! ## Token data model (`types.ts`) -/

structure ColorToken where
  name : String
  value : String
  opacity : Option ℚ := none
  description : Option String := none
  figmaId : Option String := none
  deriving Repr, DecidableEq

/-- Line height is a number or a named keyword string (`types.ts`). -/
inductive LineHeight where
  | px (q : ℚ)
  | keyword (s : String)
  deriving Repr, DecidableEq

structure TypographyToken where
  name : String
  fontFamily : String
  fontSize : ℚ
  fontWeight : ℚ
  lineHeight : LineHeight
  letterSpacing : ℚ
  description : Option String := none
  figmaId : Option String := none
  deriving Repr, DecidableEq

structure SpacingToken where
  name : String
  value : ℤ
  description : Option String := none
  deriving Repr, DecidableEq

inductive EffectType where
  | shadow
  | blur
  | glow
  deriving Repr, DecidableEq

structure EffectValue where
  color : Option String := none
  offsetX : ℚ := 0
  offsetY : ℚ := 0
  blur : ℚ
  spread : ℚ := 0
  deriving Repr, DecidableEq

structure EffectToken where
  name : String
  type : EffectType
  value : EffectValue
  description : Option String := none
  figmaId : Option String := none
  deriving Repr, DecidableEq

structure TokenMetadata where
  version : String
  lastSynced : String
  figmaFileKey : Option String := none
  figmaFileName : Option String := none
  deriving Repr, DecidableEq

structure DesignTokens where
  colors : List (String × ColorToken)
  typography : List (String × TypographyToken)
  spacing : List (String × SpacingToken)
  effects : List (String × EffectToken)
  metadata : TokenMetadata

/-! ## Tree traversal (figma-extractor.ts lines 237-267) -/

/-- Whether a node's own style-bindings map has an entry whose value is
the target identifier. -/
def nodeHasStyleId (styleId : String) (n : FigmaNode) : Bool :=
  n.styles.any fun kv => kv.2 = styleId

mutual

/-- The function `findNodeByStyleId` (lines 237-252): return this node if any entry of
its style map equals `styleId`, else search the children depth-first. -/
def findNodeByStyleId (node : FigmaNode) (styleId : String) : Option FigmaNode :=
  match node with
  | .node nm st f e ts bb ch =>
    if st.any (fun kv => kv.2 = styleId) then some (.node nm st f e ts bb ch)
    else findStyleIdInForest ch styleId

/-- The `for (const child of node.children)` loop of `findNodeByStyleId`:
first non-null recursive result wins. -/
def findStyleIdInForest (l : List FigmaNode) (styleId : String) : Option FigmaNode :=
  match l with
  | [] => none
  | c :: rest =>
    match findNodeByStyleId c styleId with
    | some found => some found
    | none => findStyleIdInForest rest styleId

end

/-- Whether a node's display name matches `target` case-insensitively
(`node.name?.toLowerCase() === name.toLowerCase()`; an absent name never
matches). -/
def nodeNameMatches (target : String) (n : FigmaNode) : Bool :=
  match n.name with
  | some s => jsLower s.data = jsLower target.data
  | none => false

mutual

/-- The function `findNodeByName` (lines 254-267): case-insensitive exact display-name
match, depth-first pre-order, first match wins. -/
def findNodeByName (node : FigmaNode) (target : String) : Option FigmaNode :=
  match node with
  | .node nm st f e ts bb ch =>
    if nodeNameMatches target (.node nm st f e ts bb ch) then
      some (.node nm st f e ts bb ch)
    else findNameInForest ch target

/-- The child loop of `findNodeByName`. -/
def findNameInForest (l : List FigmaNode) (target : String) : Option FigmaNode :=
  match l with
  | [] => none
  | c :: rest =>
    match findNodeByName c target with
    | some found => some found
    | none => findNameInForest rest target

end

mutual

/-- All nodes of a tree in depth-first pre-order (the visiting order of
both finders). -/
def allNodes (node : FigmaNode) : List FigmaNode :=
  match node with
  | .node nm st f e ts bb ch => .node nm st f e ts bb ch :: allForest ch

/-- All nodes of a forest, in order. -/
def allForest (l : List FigmaNode) : List FigmaNode :=
  match l with
  | [] => []
  | c :: rest => allNodes c ++ allForest rest

end

/-! ## Extraction (figma-extractor.ts lines 96-234, 294-305) -/

/-- The function `mapEffectType` (lines 294-305): the switch over the source effect
type; unrecognized types fall through to `shadow`. -/
def mapEffectType (figmaType : String) : EffectType :=
  match figmaType with
  | "DROP_SHADOW" => .shadow
  | "INNER_SHADOW" => .shadow
  | "LAYER_BLUR" => .blur
  | "BACKGROUND_BLUR" => .blur
  | _ => .shadow

/-- The body of the `extractColors` style loop (lines 102-116): resolve
the style's node; if its first fill carries a color, write the token,
otherwise leave the map unchanged. -/
def colorStyleStep (document : FigmaNode) (colors : List (String × ColorToken))
    (style : Style) : List (String × ColorToken) :=
  match findNodeByStyleId document style.node_id with
  | some node =>
    match node.fills.head? with
    | some fill =>
      match fill.color with
      | some c =>
        recInsert (tokenizeName style.name)
          { name := style.name
            value := figmaColorToHex c
            opacity := some (fill.opacity.getD 1)
            description := style.description
            figmaId := some style.key } colors
      | none => colors
    | none => colors
  | none => colors

/-- The style-driven part of `extractColors` (lines 100-116): for every
published style of kind `FILL`, resolve its node; a style whose node is
missing or whose node has no first fill with a color is skipped. -/
def extractColorsStyles (document : FigmaNode) (styles : List Style) :
    List (String × ColorToken) :=
  (styles.filter fun s => s.style_type = "FILL").foldl (colorStyleStep document) []

/-- The function `extractColorVariables` (lines 215-234): merge color variables into
the colors map; for each variable of resolved type `COLOR`, the value
under the first mode key of `valuesByMode` is converted to hex; the
constructed token carries no opacity field. -/
def colorVariableStep (colors : List (String × ColorToken))
    (entry : String × Variable) : List (String × ColorToken) :=
  if entry.2.resolvedType = "COLOR" then
    match entry.2.valuesByMode.head? with
    | some modeValue =>
      recInsert (tokenizeName entry.2.name)
        { name := entry.2.name
          value := figmaColorToHex modeValue.2
          description := entry.2.description
          figmaId := some entry.1 } colors
    | none => colors
  else colors

def extractColorVariables (fileData : FileData)
    (colors : List (String × ColorToken)) : List (String × ColorToken) :=
  match fileData.«variables» with
  | none => colors
  | some vars => vars.foldl colorVariableStep colors

/-- The function `extractColors` (lines 96-122): styles first, then variables merged
on top (overwriting on key collision). -/
def extractColors (fileData : FileData) (styles : List Style) :
    List (String × ColorToken) :=
  extractColorVariables fileData (extractColorsStyles fileData.document styles)

/-- The body of the `extractTypography` loop (lines 129-145): the line
height recorded is the node's pixel line-height value. -/
def typographyStyleStep (document : FigmaNode)
    (typography : List (String × TypographyToken)) (style : Style) :
    List (String × TypographyToken) :=
  match findNodeByStyleId document style.node_id with
  | some node =>
    match node.textStyle with
    | some ts =>
      recInsert (tokenizeName style.name)
        { name := style.name
          fontFamily := ts.fontFamily
          fontSize := ts.fontSize
          fontWeight := ts.fontWeight
          lineHeight := .px ts.lineHeightPx
          letterSpacing := ts.letterSpacing
          description := style.description
          figmaId := some style.key } typography
    | none => typography
  | none => typography

/-- The function `extractTypography` (lines 124-149). -/
def extractTypography (document : FigmaNode) (styles : List Style) :
    List (String × TypographyToken) :=
  (styles.filter fun s => s.style_type = "TEXT").foldl
    (typographyStyleStep document) []

/-- The fixed fallback spacing scale (line 172). -/
def defaultScale : List ℤ := [0, 4, 8, 12, 16, 20, 24, 32, 40, 48, 64, 80, 96, 128]

/-- The function `extractSpacing` (lines 151-183): tokens from the children of the
container named `Spacing` that carry a bounding box; when that yields
nothing, the fixed default scale keyed `space-0` … `space-13`.  (A child
carrying a bounding box but no name would make the source fault; such a
child's name is rendered here as the empty string — no claim depends on
that corner.) -/
def spacingChildStep (spacing : List (String × SpacingToken))
    (child : FigmaNode) : List (String × SpacingToken) :=
  match child.absoluteBoundingBox with
  | some box =>
    let childName := child.name.getD ""
    recInsert (tokenizeName childName)
      { name := childName
        value := jsRound box.width
        description := some ("Spacing unit: " ++ childName) } spacing
  | none => spacing

def extractSpacing (fileData : FileData) : List (String × SpacingToken) :=
  let fromFrame :=
    match findNodeByName fileData.document "Spacing" with
    | some frame => frame.children.foldl spacingChildStep []
    | none => []
  if fromFrame.length = 0 then
    defaultScale.enum.foldl
      (fun spacing iv =>
        recInsert ("space-" ++ toString iv.1)
          { name := "Space " ++ toString iv.1
            value := iv.2
            description := some (toString iv.2 ++ "px spacing unit") } spacing)
      fromFrame
  else fromFrame

/-- The body of the `extractEffects` loop (figma-extractor.ts lines
190-209): first effect layer of the resolved node; offsets default to 0,
spread defaults to 0, color rendered as rgba when present. -/
def effectStyleStep (document : FigmaNode)
    (effects : List (String × EffectToken)) (style : Style) :
    List (String × EffectToken) :=
  match findNodeByStyleId document style.node_id with
  | some node =>
    match node.effects.head? with
    | some effect =>
      recInsert (tokenizeName style.name)
        { name := style.name
          type := mapEffectType effect.type
          value :=
            { color := effect.color.map figmaColorToRgba
              offsetX := (effect.offset.map Prod.fst).getD 0
              offsetY := (effect.offset.map Prod.snd).getD 0
              blur := effect.radius
              spread := effect.spread.getD 0 }
          description := style.description
          figmaId := some style.key } effects
    | none => effects
  | none => effects

def extractEffects (document : FigmaNode) (styles : List Style) :
    List (String × EffectToken) :=
  (styles.filter fun s => s.style_type = "EFFECT").foldl
    (effectStyleStep document) []

/-- The method `extract` (lines 36-59): the full token snapshot of one sync run. -/
def extract (fileKey : String) (fileData : FileData) (styles : List Style)
    (now : String) : DesignTokens :=
  { colors := extractColors fileData styles
    typography := extractTypography fileData.document styles
    spacing := extractSpacing fileData
    effects := extractEffects fileData.document styles
    metadata :=
      { version := "1.0.0"
        lastSynced := now
        figmaFileKey := some fileKey
        figmaFileName := some fileData.name } }

/-! ## Serializers (`token-transformer.ts`)

Each serializer builds a list of output lines (mirroring the `lines`
array pushes of the source) or a structured configuration object that is
then rendered by a model of `JSON.stringify(·, null, 2)`; the final
string is the `\n`-join. -/

/-- Model of the file-key-or-unknown fallback (JavaScript or-else also
replaces an empty string). -/
def keyOrUnknown (o : Option String) : String :=
  match o with
  | some k => if k = "" then "unknown" else k
  | none => "unknown"

/-- Template-literal rendering of a possibly-absent string (JavaScript
interpolates `undefined` as the text `undefined`). -/
def optStr (o : Option String) : String := o.getD "undefined"

/-- Line-height rendering: numbers get a `px` suffix, keyword strings are
kept verbatim. -/
def lineHeightStr : LineHeight → String
  | .px q => numStr q ++ "px"
  | .keyword s => s

/-! ### CSS custom properties (`toCSSVariables`, lines 18-87) -/

def cssHeaderLines (t : DesignTokens) : List String :=
  [ "/**",
    " * Origin OS Design Tokens",
    " * Generated: " ++ t.metadata.lastSynced,
    " * Source: Figma file " ++ keyOrUnknown t.metadata.figmaFileKey,
    " * DO NOT EDIT MANUALLY - This file is auto-generated",
    " */",
    "",
    ":root \x7b" ]

def cssColorEntryLines (kv : String × ColorToken) : List String :=
  ("  --color-" ++ kv.1 ++ ": " ++ kv.2.value ++ ";") ::
    (match kv.2.opacity with
      | some o =>
        if o < 1 then ["  --color-" ++ kv.1 ++ "-opacity: " ++ numStr o ++ ";"]
        else []
      | none => [])

def cssColorLines (t : DesignTokens) : List String :=
  if t.colors.length > 0 then
    "  /* Colors */" :: (t.colors.flatMap cssColorEntryLines ++ [""])
  else []

def cssTypographyEntryLines (kv : String × TypographyToken) : List String :=
  [ "  --font-" ++ kv.1 ++ "-family: \"" ++ kv.2.fontFamily ++ "\";",
    "  --font-" ++ kv.1 ++ "-size: " ++ numStr kv.2.fontSize ++ "px;",
    "  --font-" ++ kv.1 ++ "-weight: " ++ numStr kv.2.fontWeight ++ ";",
    "  --font-" ++ kv.1 ++ "-line-height: " ++ lineHeightStr kv.2.lineHeight ++ ";",
    "  --font-" ++ kv.1 ++ "-letter-spacing: " ++ numStr kv.2.letterSpacing ++ "px;" ]

def cssTypographyLines (t : DesignTokens) : List String :=
  if t.typography.length > 0 then
    "  /* Typography */" :: (t.typography.flatMap cssTypographyEntryLines ++ [""])
  else []

def cssSpacingLines (t : DesignTokens) : List String :=
  if t.spacing.length > 0 then
    "  /* Spacing */" ::
      (t.spacing.map
        (fun kv => "  --spacing-" ++ kv.1 ++ ": " ++ toString kv.2.value ++ "px;")
        ++ [""])
  else []

/-- The `if shadow / else if blur` body of the effects loop; a `glow`
token matches neither branch and emits nothing. -/
def cssEffectEntryLines (kv : String × EffectToken) : List String :=
  match kv.2.type with
  | .shadow =>
    [ "  --shadow-" ++ kv.1 ++ ": " ++ numStr kv.2.value.offsetX ++ "px "
        ++ numStr kv.2.value.offsetY ++ "px " ++ numStr kv.2.value.blur ++ "px "
        ++ numStr kv.2.value.spread ++ "px " ++ optStr kv.2.value.color ++ ";" ]
  | .blur => ["  --blur-" ++ kv.1 ++ ": " ++ numStr kv.2.value.blur ++ "px;"]
  | .glow => []

def cssEffectLines (t : DesignTokens) : List String :=
  if t.effects.length > 0 then
    "  /* Effects */" :: (t.effects.flatMap cssEffectEntryLines ++ [""])
  else []

def cssFooterLines : List String :=
  [ "\x7d", "", "[data-theme=\"dark\"] \x7b",
    "  /* Dark mode overrides - customize as needed */", "\x7d" ]

def cssVariableLines (t : DesignTokens) : List String :=
  cssHeaderLines t ++ cssColorLines t ++ cssTypographyLines t
    ++ cssSpacingLines t ++ cssEffectLines t ++ cssFooterLines

def toCSSVariables (t : DesignTokens) : String :=
  String.intercalate "\n" (cssVariableLines t)

/-! ### SCSS variables (`toSCSS`, lines 167-258) -/

def scssHeaderLines (t : DesignTokens) : List String :=
  [ "//",
    "// Origin OS Design Tokens (SCSS)",
    "// Generated: " ++ t.metadata.lastSynced,
    "// DO NOT EDIT MANUALLY - This file is auto-generated",
    "//",
    "" ]

def scssColorLines (t : DesignTokens) : List String :=
  if t.colors.length > 0 then
    ["// Colors", "// -------"]
      ++ t.colors.map (fun kv => "$color-" ++ kv.1 ++ ": " ++ kv.2.value ++ ";")
      ++ [""]
      ++ ["$colors: ("]
      ++ t.colors.map (fun kv => "  \"" ++ kv.1 ++ "\": " ++ kv.2.value ++ ",")
      ++ [");", ""]
  else []

def scssTypographyEntryLines (kv : String × TypographyToken) : List String :=
  [ "$font-" ++ kv.1 ++ "-family: \"" ++ kv.2.fontFamily ++ "\";",
    "$font-" ++ kv.1 ++ "-size: " ++ numStr kv.2.fontSize ++ "px;",
    "$font-" ++ kv.1 ++ "-weight: " ++ numStr kv.2.fontWeight ++ ";",
    "$font-" ++ kv.1 ++ "-line-height: " ++ lineHeightStr kv.2.lineHeight ++ ";",
    "$font-" ++ kv.1 ++ "-letter-spacing: " ++ numStr kv.2.letterSpacing ++ "px;",
    "" ]

def scssMixinBranchLines (kv : String × TypographyToken) : List String :=
  [ "  @if $style == \"" ++ kv.1 ++ "\" \x7b",
    "    font-family: $font-" ++ kv.1 ++ "-family;",
    "    font-size: $font-" ++ kv.1 ++ "-size;",
    "    font-weight: $font-" ++ kv.1 ++ "-weight;",
    "    line-height: $font-" ++ kv.1 ++ "-line-height;",
    "    letter-spacing: $font-" ++ kv.1 ++ "-letter-spacing;",
    "  \x7d" ]

def scssTypographyLines (t : DesignTokens) : List String :=
  if t.typography.length > 0 then
    ["// Typography", "// ----------"]
      ++ t.typography.flatMap scssTypographyEntryLines
      ++ ["// Typography Mixin", "@mixin typography($style) \x7b"]
      ++ t.typography.flatMap scssMixinBranchLines
      ++ ["\x7d", ""]
  else []

def scssSpacingLines (t : DesignTokens) : List String :=
  if t.spacing.length > 0 then
    ["// Spacing", "// -------"]
      ++ t.spacing.map
        (fun kv => "$spacing-" ++ kv.1 ++ ": " ++ toString kv.2.value ++ "px;")
      ++ [""]
      ++ ["$spacing: ("]
      ++ t.spacing.map
        (fun kv => "  \"" ++ kv.1 ++ "\": " ++ toString kv.2.value ++ "px,")
      ++ [");", ""]
  else []

/-- The `if shadow / else if blur` body of the SCSS effects loop. -/
def scssEffectEntryLines (kv : String × EffectToken) : List String :=
  match kv.2.type with
  | .shadow =>
    [ "$shadow-" ++ kv.1 ++ ": " ++ numStr kv.2.value.offsetX ++ "px "
        ++ numStr kv.2.value.offsetY ++ "px " ++ numStr kv.2.value.blur ++ "px "
        ++ numStr kv.2.value.spread ++ "px " ++ optStr kv.2.value.color ++ ";" ]
  | .blur => ["$blur-" ++ kv.1 ++ ": " ++ numStr kv.2.value.blur ++ "px;"]
  | .glow => []

def scssEffectLines (t : DesignTokens) : List String :=
  if t.effects.length > 0 then
    ["// Effects", "// -------"] ++ t.effects.flatMap scssEffectEntryLines ++ [""]
  else []

def scssLines (t : DesignTokens) : List String :=
  scssHeaderLines t ++ scssColorLines t ++ scssTypographyLines t
    ++ scssSpacingLines t ++ scssEffectLines t

def toSCSS (t : DesignTokens) : String :=
  String.intercalate "\n" (scssLines t)

/-! ### A model of `JSON.stringify(value, null, 2)`

The values serialized by this repository contain only strings, numbers,
arrays and objects (insertion-ordered). -/

inductive Json where
  | str (s : String)
  | num (q : ℚ)
  | arr (items : List Json)
  | obj (entries : List (String × Json))
  deriving Repr

/-- JSON string escaping as performed by `JSON.stringify`. -/
def escapeJsonChar (c : Char) : List Char :=
  if c = '"' then ['\\', '"']
  else if c = '\\' then ['\\', '\\']
  else if c = '\n' then ['\\', 'n']
  else if c = '\r' then ['\\', 'r']
  else if c = '\t' then ['\\', 't']
  else if c = '\x08' then ['\\', 'b']
  else if c = '\x0c' then ['\\', 'f']
  else if c.toNat < 32 then
    ['\\', 'u', '0', '0', hexDigitChar (c.toNat / 16), hexDigitChar (c.toNat % 16)]
  else [c]

def quoteJson (s : String) : String :=
  "\"" ++ (⟨s.data.flatMap escapeJsonChar⟩ : String) ++ "\""

/-- The two-space indentation prefix at nesting depth `d`. -/
def jsIndent (d : ℕ) : String := ⟨List.replicate (2 * d) ' '⟩

mutual

/-- Model of `JSON.stringify(value, null, 2)` at nesting depth `d`. -/
def jsonRender (j : Json) (d : ℕ) : String :=
  match j with
  | .str s => quoteJson s
  | .num q => numStr q
  | .arr [] => "[]"
  | .arr (x :: xs) =>
    "[\n" ++ String.intercalate ",\n" (jsonRenderItems (x :: xs) (d + 1))
      ++ "\n" ++ jsIndent d ++ "]"
  | .obj [] => "\x7b\x7d"
  | .obj (e :: es) =>
    "\x7b\n" ++ String.intercalate ",\n" (jsonRenderEntries (e :: es) (d + 1))
      ++ "\n" ++ jsIndent d ++ "\x7d"

def jsonRenderItems (l : List Json) (d : ℕ) : List String :=
  match l with
  | [] => []
  | x :: xs => (jsIndent d ++ jsonRender x d) :: jsonRenderItems xs d

def jsonRenderEntries (l : List (String × Json)) (d : ℕ) : List String :=
  match l with
  | [] => []
  | (k, v) :: es =>
    (jsIndent d ++ quoteJson k ++ ": " ++ jsonRender v d) :: jsonRenderEntries es d

end

/-! ### Tailwind configuration (`toTailwindConfig`, lines 92-162) -/

/-- The function `slugify` (token-transformer.ts lines 335-340). -/
def slugify (text : String) : String :=
  ⟨stripNonKey (collapseWs (jsLower text.data))⟩

/-- Model of insert-if-absent assignment: insert only when the key is absent (every
stored value here is an array, hence truthy). -/
def recInsertIfAbsent (k : String) (v : α) (l : List (String × α)) :
    List (String × α) :=
  if (l.lookup k).isSome then l else l ++ [(k, v)]

/-- The body of the Tailwind effects loop (lines 141-148), acting on the
pair (`boxShadow` map, `blur` map): a `glow` token matches neither the
`shadow` branch nor the `blur` branch and leaves both maps unchanged. -/
def twEffectStep (p : List (String × String) × List (String × String))
    (kv : String × EffectToken) :
    List (String × String) × List (String × String) :=
  match kv.2.type with
  | .shadow =>
    ( recInsert kv.1
        (numStr kv.2.value.offsetX ++ "px " ++ numStr kv.2.value.offsetY
          ++ "px " ++ numStr kv.2.value.blur ++ "px "
          ++ numStr kv.2.value.spread ++ "px " ++ optStr kv.2.value.color) p.1,
      p.2 )
  | .blur => (p.1, recInsert kv.1 (numStr kv.2.value.blur ++ "px") p.2)
  | .glow => p

/-- The `theme.extend` object built by `toTailwindConfig`; the
`fontWeight`, `lineHeight` and `letterSpacing` maps are declared but
never populated. -/
structure TailwindExtend where
  colors : List (String × String)
  fontFamily : List (String × List String)
  fontSize : List (String × (String × String))
  fontWeight : List (String × String)
  lineHeight : List (String × String)
  letterSpacing : List (String × String)
  spacing : List (String × String)
  boxShadow : List (String × String)
  blur : List (String × String)
  deriving Repr

def tailwindExtend (t : DesignTokens) : TailwindExtend :=
  let colors := t.colors.foldl (fun m kv => recInsert kv.1 kv.2.value m) []
  let famsSizes :=
    t.typography.foldl
      (fun (p : List (String × List String) × List (String × (String × String))) kv =>
        let familyKey := slugify kv.2.fontFamily
        ( recInsertIfAbsent familyKey [kv.2.fontFamily] p.1,
          recInsert kv.1 (numStr kv.2.fontSize ++ "px", lineHeightStr kv.2.lineHeight) p.2 ))
      ([], [])
  let spacing :=
    t.spacing.foldl (fun m kv => recInsert kv.1 (toString kv.2.value ++ "px") m) []
  let shadowsBlurs := t.effects.foldl twEffectStep ([], [])
  { colors := colors
    fontFamily := famsSizes.1
    fontSize := famsSizes.2
    fontWeight := []
    lineHeight := []
    letterSpacing := []
    spacing := spacing
    boxShadow := shadowsBlurs.1
    blur := shadowsBlurs.2 }

/-- The configuration object handed to `JSON.stringify`, with the key
insertion order of the source. -/
def tailwindConfigJson (t : DesignTokens) : Json :=
  let e := tailwindExtend t
  .obj [("theme", .obj [("extend", .obj [
    ("colors", .obj (e.colors.map fun kv => (kv.1, .str kv.2))),
    ("fontFamily", .obj (e.fontFamily.map fun kv => (kv.1, .arr (kv.2.map .str)))),
    ("fontSize", .obj (e.fontSize.map fun kv =>
      (kv.1, .arr [.str kv.2.1, .obj [("lineHeight", .str kv.2.2)]]))),
    ("fontWeight", .obj (e.fontWeight.map fun kv => (kv.1, .str kv.2))),
    ("lineHeight", .obj (e.lineHeight.map fun kv => (kv.1, .str kv.2))),
    ("letterSpacing", .obj (e.letterSpacing.map fun kv => (kv.1, .str kv.2))),
    ("spacing", .obj (e.spacing.map fun kv => (kv.1, .str kv.2))),
    ("boxShadow", .obj (e.boxShadow.map fun kv => (kv.1, .str kv.2))),
    ("blur", .obj (e.blur.map fun kv => (kv.1, .str kv.2)))])])]

def tailwindHeaderLines (t : DesignTokens) : List String :=
  [ "/**",
    " * Origin OS Tailwind Design Tokens",
    " * Generated: " ++ t.metadata.lastSynced,
    " * DO NOT EDIT MANUALLY - This file is auto-generated",
    " */",
    "",
    "/** @type \x7bimport(\"tailwindcss\").Config\x7d */" ]

def tailwindLines (t : DesignTokens) : List String :=
  tailwindHeaderLines t
    ++ ["module.exports = " ++ jsonRender (tailwindConfigJson t) 0]

def toTailwindConfig (t : DesignTokens) : String :=
  String.intercalate "\n" (tailwindLines t)

/-! ### Structured JSON document (`toJSON`, lines 263-332) -/

/-- Model of the description-or-name fallback: an absent or empty description falls
back to the display name. -/
def descOrName (d : Option String) (n : String) : String :=
  match d with
  | some s => if s = "" then n else s
  | none => n

def jsonColorEntries (t : DesignTokens) : List (String × Json) :=
  t.colors.foldl
    (fun m kv =>
      recInsert kv.1 (.obj [
        ("$type", .str "color"),
        ("$value", .str kv.2.value),
        ("$description", .str (descOrName kv.2.description kv.2.name))]) m)
    []

def jsonTypographyEntries (t : DesignTokens) : List (String × Json) :=
  t.typography.foldl
    (fun m kv =>
      recInsert kv.1 (.obj [
        ("$type", .str "typography"),
        ("$value", .obj [
          ("fontFamily", .str kv.2.fontFamily),
          ("fontSize", .str (numStr kv.2.fontSize ++ "px")),
          ("fontWeight", .num kv.2.fontWeight),
          ("lineHeight", .str (lineHeightStr kv.2.lineHeight)),
          ("letterSpacing", .str (numStr kv.2.letterSpacing ++ "px"))]),
        ("$description", .str (descOrName kv.2.description kv.2.name))]) m)
    []

def jsonSpacingEntries (t : DesignTokens) : List (String × Json) :=
  t.spacing.foldl
    (fun m kv =>
      recInsert kv.1 (.obj [
        ("$type", .str "dimension"),
        ("$value", .str (toString kv.2.value ++ "px")),
        ("$description", .str (descOrName kv.2.description kv.2.name))]) m)
    []

/-- The body of the `toJSON` effects loop (lines 315-329): ONLY tokens
whose type is `shadow` produce an entry; `blur` and `glow` tokens are
skipped. -/
def jsonEffectStep (m : List (String × Json)) (kv : String × EffectToken) :
    List (String × Json) :=
  if kv.2.type = .shadow then
    recInsert kv.1 (.obj [
      ("$type", .str "shadow"),
      ("$value", .obj
        ((match kv.2.value.color with
          | some c => [("color", Json.str c)]
          | none => []) ++
         [("offsetX", .str (numStr kv.2.value.offsetX ++ "px")),
          ("offsetY", .str (numStr kv.2.value.offsetY ++ "px")),
          ("blur", .str (numStr kv.2.value.blur ++ "px")),
          ("spread", .str (numStr kv.2.value.spread ++ "px"))])),
      ("$description", .str (descOrName kv.2.description kv.2.name))]) m
  else m

def jsonEffectEntries (t : DesignTokens) : List (String × Json) :=
  t.effects.foldl jsonEffectStep []

/-- The full document object of `toJSON`, in source key order; an absent
source file key is omitted by `JSON.stringify` (undefined property). -/
def jsonDocument (t : DesignTokens) : Json :=
  .obj [
    ("$schema", .str "https://design-tokens.github.io/community-group/format/"),
    ("$metadata", .obj [
      ("generator", .str "origin-os-figma-sync"),
      ("version", .str t.metadata.version),
      ("lastSynced", .str t.metadata.lastSynced),
      ("source", .obj
        (("type", Json.str "figma") ::
          (match t.metadata.figmaFileKey with
            | some k => [("fileKey", Json.str k)]
            | none => [])))]),
    ("color", .obj (jsonColorEntries t)),
    ("typography", .obj (jsonTypographyEntries t)),
    ("spacing", .obj (jsonSpacingEntries t)),
    ("effect", .obj (jsonEffectEntries t))]

def toJSON (t : DesignTokens) : String :=
  jsonRender (jsonDocument t) 0

/-! ## Spec-side definitions

These restate parts of the specification in its own words, to be compared
with the definitions translated from the source. -/

/-- A byte formatted, in the spec's words, as a zero-padded two-digit
lowercase hex value. -/
def specHexByte (n : ℕ) : String := ⟨[hexDigitChar (n / 16), hexDigitChar (n % 16)]⟩

/-- Substring test (used to state facts about whole serializer outputs):
whether `pat` occurs contiguously in `s`. -/
def strContains (s pat : String) : Bool :=
  s.data.tails.any fun t => pat.data.isPrefixOf t

/-- The spec's fixed default spacing scale: 14 tokens keyed
`space-0` … `space-13`, values `[0,4,8,12,16,20,24,32,40,48,64,80,96,128]`,
in that insertion order. -/
def defaultSpacingTokens : List (String × SpacingToken) :=
  [ ("space-0", { name := "Space 0", value := 0, description := some "0px spacing unit" }),
    ("space-1", { name := "Space 1", value := 4, description := some "4px spacing unit" }),
    ("space-2", { name := "Space 2", value := 8, description := some "8px spacing unit" }),
    ("space-3", { name := "Space 3", value := 12, description := some "12px spacing unit" }),
    ("space-4", { name := "Space 4", value := 16, description := some "16px spacing unit" }),
    ("space-5", { name := "Space 5", value := 20, description := some "20px spacing unit" }),
    ("space-6", { name := "Space 6", value := 24, description := some "24px spacing unit" }),
    ("space-7", { name := "Space 7", value := 32, description := some "32px spacing unit" }),
    ("space-8", { name := "Space 8", value := 40, description := some "40px spacing unit" }),
    ("space-9", { name := "Space 9", value := 48, description := some "48px spacing unit" }),
    ("space-10", { name := "Space 10", value := 64, description := some "64px spacing unit" }),
    ("space-11", { name := "Space 11", value := 80, description := some "80px spacing unit" }),
    ("space-12", { name := "Space 12", value := 96, description := some "96px spacing unit" }),
    ("space-13", { name := "Space 13", value := 128, description := some "128px spacing unit" }) ]

/-! # Lemmas -/

/-! ## Ordered-map lemmas -/

theorem recInsert_cons_eq (k : String) (v v₀ : α) (rest : List (String × α)) :
    recInsert k v ((k, v₀) :: rest) = (k, v) :: rest := by
  simp [recInsert]

theorem recInsert_cons_ne {k₀ k : String} (h : k₀ ≠ k) (v : α) (v₀ : α)
    (rest : List (String × α)) :
    recInsert k v ((k₀, v₀) :: rest) = (k₀, v₀) :: recInsert k v rest := by
  simp [recInsert, h]

theorem lookup_cons_self (k : String) (v : α) (rest : List (String × α)) :
    ((k, v) :: rest).lookup k = some v := by
  simp [List.lookup]

theorem lookup_cons_ne {k' k₀ : String} (h : k' ≠ k₀) (v₀ : α)
    (rest : List (String × α)) :
    ((k₀, v₀) :: rest).lookup k' = rest.lookup k' := by
  have hb : (k' == k₀) = false := by simp [h]
  simp [List.lookup, hb]

theorem lookup_recInsert_self (k : String) (v : α) (l : List (String × α)) :
    (recInsert k v l).lookup k = some v := by
  induction l with
  | nil => simp [recInsert, List.lookup]
  | cons kv rest ih =>
    obtain ⟨k₀, v₀⟩ := kv
    by_cases h : k₀ = k
    · subst h
      rw [recInsert_cons_eq, lookup_cons_self]
    · rw [recInsert_cons_ne h, lookup_cons_ne (Ne.symm h), ih]

theorem lookup_recInsert_ne (k k' : String) (hne : k' ≠ k) (v : α)
    (l : List (String × α)) : (recInsert k v l).lookup k' = l.lookup k' := by
  induction l with
  | nil =>
    have hb : (k' == k) = false := by simp [hne]
    simp [recInsert, List.lookup, hb]
  | cons kv rest ih =>
    obtain ⟨k₀, v₀⟩ := kv
    by_cases h : k₀ = k
    · subst h
      rw [recInsert_cons_eq, lookup_cons_ne hne, lookup_cons_ne hne]
    · by_cases h' : k' = k₀
      · subst h'
        rw [recInsert_cons_ne h, lookup_cons_self, lookup_cons_self]
      · rw [recInsert_cons_ne h, lookup_cons_ne h', lookup_cons_ne h', ih]

theorem mem_recInsert {kv : String × α} {k : String} {v : α}
    {l : List (String × α)} (h : kv ∈ recInsert k v l) : kv = (k, v) ∨ kv ∈ l := by
  induction l with
  | nil => simpa [recInsert] using h
  | cons kv' rest ih =>
    obtain ⟨k₀, v₀⟩ := kv'
    by_cases hk : k₀ = k
    · subst hk
      rw [recInsert_cons_eq] at h
      rcases List.mem_cons.mp h with h | h
      · exact Or.inl h
      · exact Or.inr (List.mem_cons_of_mem _ h)
    · rw [recInsert_cons_ne hk] at h
      rcases List.mem_cons.mp h with h | h
      · exact Or.inr (by simp [h])
      · rcases ih h with h' | h'
        · exact Or.inl h'
        · exact Or.inr (List.mem_cons_of_mem _ h')

theorem mem_keys_recInsert_self (k : String) (v : α) (l : List (String × α)) :
    k ∈ (recInsert k v l).map Prod.fst := by
  induction l with
  | nil => simp [recInsert]
  | cons kv rest ih =>
    obtain ⟨k₀, v₀⟩ := kv
    by_cases hk : k₀ = k
    · subst hk
      rw [recInsert_cons_eq]
      simp
    · rw [recInsert_cons_ne hk]
      simp only [List.map_cons, List.mem_cons]
      exact Or.inr ih

theorem mem_keys_recInsert_of_mem {k' : String} (k : String) (v : α)
    {l : List (String × α)} (h : k' ∈ l.map Prod.fst) :
    k' ∈ (recInsert k v l).map Prod.fst := by
  induction l with
  | nil => simp at h
  | cons kv rest ih =>
    obtain ⟨k₀, v₀⟩ := kv
    simp only [List.map_cons, List.mem_cons] at h
    by_cases hk : k₀ = k
    · subst hk
      rw [recInsert_cons_eq]
      rcases h with h | h
      · simp [h]
      · simp only [List.map_cons, List.mem_cons]
        exact Or.inr h
    · rw [recInsert_cons_ne hk]
      simp only [List.map_cons, List.mem_cons]
      rcases h with h | h
      · exact Or.inl h
      · exact Or.inr (ih h)

theorem not_mem_keys_recInsert {k' k : String} (v : α) {l : List (String × α)}
    (h1 : k' ∉ l.map Prod.fst) (h2 : k' ≠ k) :
    k' ∉ (recInsert k v l).map Prod.fst := by
  induction l with
  | nil => simp [recInsert, h2]
  | cons kv rest ih =>
    obtain ⟨k₀, v₀⟩ := kv
    simp only [List.map_cons, List.mem_cons, not_or] at h1
    by_cases hk : k₀ = k
    · subst hk
      rw [recInsert_cons_eq]
      simp only [List.map_cons, List.mem_cons, not_or]
      exact ⟨h2, h1.2⟩
    · rw [recInsert_cons_ne hk]
      simp only [List.map_cons, List.mem_cons, not_or]
      exact ⟨h1.1, ih h1.2⟩

/-! ## Rounding and hex lemmas -/

theorem jsRound_eq_floor (q : ℚ) : jsRound q = ⌊q + 1/2⌋ := by
  simp [jsRound, Rat.floor_def', Rat.floor_def]

theorem jsRound_bounds {q : ℚ} (h0 : 0 ≤ q) (h1 : q ≤ 1) :
    0 ≤ jsRound (q * 255) ∧ jsRound (q * 255) ≤ 255 := by
  rw [jsRound_eq_floor]
  constructor
  · apply Int.le_floor.mpr
    push_cast
    linarith
  · have h : (q * 255 + 1/2 : ℚ) < ((256 : ℤ) : ℚ) := by push_cast; linarith
    have := Int.floor_lt.mpr h
    omega

set_option maxRecDepth 8192 in
theorem padHex_eq_specHexByte : ∀ n : ℕ, n < 256 →
    padStart2 (intToHexString (n : ℤ)) = specHexByte n := by decide

theorem specHexByte_length (n : ℕ) : (specHexByte n).length = 2 := rfl

/-- Claim C1: `tokenizeName` is the composition: lowercase, replace every
`/` with a hyphen, collapse each whitespace run to one hyphen, remove
every character outside `[a-z0-9-]`, collapse hyphen runs, strip
leading/trailing hyphens; `"Colors/Primary/500"` maps to
`"colors-primary-500"` and `"  Heading   1 "` to `"heading-1"`. -/
theorem tokenizeName_correct :
    (∀ name : String, tokenizeName name =
      ⟨trimHyphens (collapseHyphens (stripNonKey (collapseWs (replaceSlash
        (jsLower name.data)))))⟩) ∧
    tokenizeName "Colors/Primary/500" = "colors-primary-500" ∧
    tokenizeName "  Heading   1 " = "heading-1" :=
  ⟨fun _ => rfl, rfl, rfl⟩

/-- Claim C2: for unit-interval rational channels, `figmaColorToHex` is `#`
followed by the three channels, each `round(channel * 255)` rendered as a
zero-padded two-digit lowercase hex byte (total length 7); `jsRound`
rounds to a nearest integer (half-values included); `(1,0,0) ↦ #ff0000`
and `(0,0,0) ↦ #000000`. -/
theorem figmaColorToHex_correct :
    (∀ c : FigmaColor, 0 ≤ c.r → c.r ≤ 1 → 0 ≤ c.g → c.g ≤ 1 →
      0 ≤ c.b → c.b ≤ 1 →
      figmaColorToHex c =
        "#" ++ specHexByte (jsRound (c.r * 255)).toNat
            ++ specHexByte (jsRound (c.g * 255)).toNat
            ++ specHexByte (jsRound (c.b * 255)).toNat ∧
      (figmaColorToHex c).length = 7) ∧
    (∀ q : ℚ, |((jsRound q : ℤ) : ℚ) - q| ≤ 1/2) ∧
    figmaColorToHex ⟨1, 0, 0, none⟩ = "#ff0000" ∧
    figmaColorToHex ⟨0, 0, 0, none⟩ = "#000000" := by
  refine ⟨?_, ?_, ?_, ?_⟩
  · intro c hr0 hr1 hg0 hg1 hb0 hb1
    obtain ⟨hrl, hru⟩ := jsRound_bounds hr0 hr1
    obtain ⟨hgl, hgu⟩ := jsRound_bounds hg0 hg1
    obtain ⟨hbl, hbu⟩ := jsRound_bounds hb0 hb1
    have er : ((jsRound (c.r * 255)).toNat : ℤ) = jsRound (c.r * 255) :=
      Int.toNat_of_nonneg hrl
    have eg : ((jsRound (c.g * 255)).toNat : ℤ) = jsRound (c.g * 255) :=
      Int.toNat_of_nonneg hgl
    have eb : ((jsRound (c.b * 255)).toNat : ℤ) = jsRound (c.b * 255) :=
      Int.toNat_of_nonneg hbl
    have hr' : padStart2 (intToHexString (jsRound (c.r * 255))) =
        specHexByte (jsRound (c.r * 255)).toNat := by
      have h := padHex_eq_specHexByte (jsRound (c.r * 255)).toNat (by omega)
      rwa [er] at h
    have hg' : padStart2 (intToHexString (jsRound (c.g * 255))) =
        specHexByte (jsRound (c.g * 255)).toNat := by
      have h := padHex_eq_specHexByte (jsRound (c.g * 255)).toNat (by omega)
      rwa [eg] at h
    have hb' : padStart2 (intToHexString (jsRound (c.b * 255))) =
        specHexByte (jsRound (c.b * 255)).toNat := by
      have h := padHex_eq_specHexByte (jsRound (c.b * 255)).toNat (by omega)
      rwa [eb] at h
    have main : figmaColorToHex c =
        "#" ++ specHexByte (jsRound (c.r * 255)).toNat
            ++ specHexByte (jsRound (c.g * 255)).toNat
            ++ specHexByte (jsRound (c.b * 255)).toNat := by
      simp only [figmaColorToHex]
      rw [hr', hg', hb']
    refine ⟨main, ?_⟩
    rw [main]
    simp only [String.length_append, specHexByte_length]
    rfl
  · intro q
    rw [jsRound_eq_floor]
    have hle := Int.floor_le (q + 1/2)
    have hlt := Int.lt_floor_add_one (q + 1/2)
    rw [abs_le]
    constructor <;> linarith
  · norm_num [figmaColorToHex, jsRound_eq_floor]
    decide
  · norm_num [figmaColorToHex, jsRound_eq_floor]
    decide

/-! ## Traversal characterization -/

theorem find?_append (l₁ l₂ : List α) (p : α → Bool) :
    (l₁ ++ l₂).find? p =
      match l₁.find? p with
      | some x => some x
      | none => l₂.find? p := by
  induction l₁ with
  | nil => simp
  | cons a l ih =>
    cases h : p a
    · simp [List.find?, h, ih]
    · simp [List.find?, h]

mutual

theorem findStyleId_eq_find (n : FigmaNode) (sid : String) :
    findNodeByStyleId n sid = (allNodes n).find? (nodeHasStyleId sid) := by
  match n with
  | .node nm st f e ts bb ch =>
    rw [findNodeByStyleId, allNodes]
    cases h : st.any (fun kv => decide (kv.2 = sid))
    · have hp : nodeHasStyleId sid (.node nm st f e ts bb ch) = false := h
      rw [if_neg (by simp [h]), List.find?_cons_of_neg _ (by simp [hp]),
        findStyleIdForest_eq_find ch sid]
    · have hp : nodeHasStyleId sid (.node nm st f e ts bb ch) = true := h
      rw [if_pos (by simp_all), List.find?_cons_of_pos _ hp]

theorem findStyleIdForest_eq_find (l : List FigmaNode) (sid : String) :
    findStyleIdInForest l sid = (allForest l).find? (nodeHasStyleId sid) := by
  match l with
  | [] => rw [findStyleIdInForest, allForest]; rfl
  | c :: rest =>
    rw [findStyleIdInForest, allForest, find?_append,
      ← findStyleId_eq_find c sid, ← findStyleIdForest_eq_find rest sid]
    cases findNodeByStyleId c sid <;> rfl

end

mutual

theorem findName_eq_find (n : FigmaNode) (target : String) :
    findNodeByName n target = (allNodes n).find? (nodeNameMatches target) := by
  match n with
  | .node nm st f e ts bb ch =>
    rw [findNodeByName, allNodes]
    cases h : nodeNameMatches target (.node nm st f e ts bb ch)
    · rw [if_neg (by simp [h]), List.find?_cons_of_neg _ (by simp [h]),
        findNameForest_eq_find ch target]
    · rw [if_pos (by simp [h]), List.find?_cons_of_pos _ h]

theorem findNameForest_eq_find (l : List FigmaNode) (target : String) :
    findNameInForest l target = (allForest l).find? (nodeNameMatches target) := by
  match l with
  | [] => rw [findNameInForest, allForest]; rfl
  | c :: rest =>
    rw [findNameInForest, allForest, find?_append,
      ← findName_eq_find c target, ← findNameForest_eq_find rest target]
    cases findNodeByName c target <;> rfl

end

/-- Claim C6: `findNodeByStyleId` returns the first node, in depth-first
pre-order, whose own style-bindings map has some entry with value equal
to the identifier — and `none` exactly when no node of the tree matches
(`List.find?` on the pre-order listing captures both). -/
theorem findNodeByStyleId_correct (document : FigmaNode) (styleId : String) :
    findNodeByStyleId document styleId =
      (allNodes document).find? (nodeHasStyleId styleId) :=
  findStyleId_eq_find document styleId

/-! ## Spacing fallback (C3) -/

theorem spacingFold_nil {children : List FigmaNode}
    (h : ∀ c ∈ children, c.absoluteBoundingBox = none)
    (acc : List (String × SpacingToken)) :
    children.foldl spacingChildStep acc = acc := by
  induction children generalizing acc with
  | nil => rfl
  | cons c rest ih =>
    rw [List.foldl_cons]
    have hc : spacingChildStep acc c = acc := by
      simp [spacingChildStep, h c (List.mem_cons_self c rest)]
    rw [hc]
    exact ih (fun x hx => h x (List.mem_cons_of_mem _ hx)) acc

set_option maxRecDepth 4096 in
/-- Claim C3: when no node of the document is named `Spacing`
(case-insensitively), or the located container has no child with a
bounding box, `extractSpacing` is exactly the 14 default tokens
`space-0` … `space-13` with values `[0,4,8,12,16,20,24,32,40,48,64,80,96,128]`,
in that insertion order, regardless of any other content. -/
theorem extractSpacing_default (fd : FileData)
    (h : (∀ m ∈ allNodes fd.document, nodeNameMatches "Spacing" m = false) ∨
      (∃ frame, findNodeByName fd.document "Spacing" = some frame ∧
        ∀ c ∈ frame.children, c.absoluteBoundingBox = none)) :
    extractSpacing fd = defaultSpacingTokens := by
  have hframe : (match findNodeByName fd.document "Spacing" with
      | some frame => frame.children.foldl spacingChildStep []
      | none => []) = ([] : List (String × SpacingToken)) := by
    rcases h with h | ⟨frame, hf, hc⟩
    · have hnone : findNodeByName fd.document "Spacing" = none := by
        rw [findName_eq_find]
        apply List.find?_eq_none.mpr
        intro x hx
        simp [h x hx]
      rw [hnone]
    · rw [hf]
      exact spacingFold_nil hc []
  simp only [extractSpacing, hframe]
  decide

theorem extractSpacing_default_witness :
    extractSpacing { document := .node (some "root") [] [] [] none none [] } =
      defaultSpacingTokens := by
  apply extractSpacing_default
  left
  intro m hm
  have : m = .node (some "root") [] [] [] none none [] := by
    simpa [allNodes, allForest] using hm
  subst this
  decide

/-! ## Malformed-entry resilience (C5) -/

theorem foldl_middle_skip {f : β → α → β} {mid : α}
    (hmid : ∀ acc, f acc mid = acc) (l₁ l₂ : List α) (init : β) :
    (l₁ ++ mid :: l₂).foldl f init = (l₁ ++ l₂).foldl f init := by
  rw [List.foldl_append, List.foldl_append, List.foldl_cons, hmid]

theorem colorStyleStep_malformed (document : FigmaNode)
    (colors : List (String × ColorToken)) (bad : Style)
    (h : findNodeByStyleId document bad.node_id = none ∨
      ∀ node, findNodeByStyleId document bad.node_id = some node →
        node.fills.head?.bind Fill.color = none) :
    colorStyleStep document colors bad = colors := by
  rcases h with h | h
  · simp [colorStyleStep, h]
  · cases hn : findNodeByStyleId document bad.node_id with
    | none => simp [colorStyleStep, hn]
    | some node =>
      have hcol := h node hn
      cases hf : node.fills.head? with
      | none => simp [colorStyleStep, hn, hf]
      | some fill =>
        rw [hf, Option.some_bind] at hcol
        simp [colorStyleStep, hn, hf, hcol]

theorem typographyStyleStep_malformed (document : FigmaNode)
    (typography : List (String × TypographyToken)) (bad : Style)
    (h : findNodeByStyleId document bad.node_id = none ∨
      ∀ node, findNodeByStyleId document bad.node_id = some node →
        node.textStyle = none) :
    typographyStyleStep document typography bad = typography := by
  rcases h with h | h
  · simp [typographyStyleStep, h]
  · cases hn : findNodeByStyleId document bad.node_id with
    | none => simp [typographyStyleStep, hn]
    | some node => simp [typographyStyleStep, hn, h node hn]

theorem effectStyleStep_malformed (document : FigmaNode)
    (effects : List (String × EffectToken)) (bad : Style)
    (h : findNodeByStyleId document bad.node_id = none ∨
      ∀ node, findNodeByStyleId document bad.node_id = some node →
        node.effects.head? = none) :
    effectStyleStep document effects bad = effects := by
  rcases h with h | h
  · simp [effectStyleStep, h]
  · cases hn : findNodeByStyleId document bad.node_id with
    | none => simp [effectStyleStep, hn]
    | some node => simp [effectStyleStep, hn, h node hn]

/-- Claim C5: a style entry whose node cannot be resolved or whose resolved
node lacks the expected payload (first fill with color / text-style
object / first effect) contributes zero tokens and leaves every other
style's extraction identical to the run without it (and extraction is a
total function — no error is possible). -/
theorem extraction_skips_malformed :
    (∀ (document : FigmaNode) (pre post : List Style) (bad : Style),
      (findNodeByStyleId document bad.node_id = none ∨
        ∀ node, findNodeByStyleId document bad.node_id = some node →
          node.fills.head?.bind Fill.color = none) →
      extractColorsStyles document (pre ++ bad :: post) =
        extractColorsStyles document (pre ++ post)) ∧
    (∀ (document : FigmaNode) (pre post : List Style) (bad : Style),
      (findNodeByStyleId document bad.node_id = none ∨
        ∀ node, findNodeByStyleId document bad.node_id = some node →
          node.textStyle = none) →
      extractTypography document (pre ++ bad :: post) =
        extractTypography document (pre ++ post)) ∧
    (∀ (document : FigmaNode) (pre post : List Style) (bad : Style),
      (findNodeByStyleId document bad.node_id = none ∨
        ∀ node, findNodeByStyleId document bad.node_id = some node →
          node.effects.head? = none) →
      extractEffects document (pre ++ bad :: post) =
        extractEffects document (pre ++ post)) := by
  refine ⟨?_, ?_, ?_⟩
  · intro document pre post bad h
    by_cases hp : bad.style_type = "FILL"
    · have hfil : (pre ++ bad :: post).filter (fun s => decide (s.style_type = "FILL")) =
          pre.filter (fun s => decide (s.style_type = "FILL")) ++
            bad :: post.filter (fun s => decide (s.style_type = "FILL")) := by
        simp [List.filter_append, List.filter_cons, hp]
      rw [extractColorsStyles, extractColorsStyles, hfil, List.filter_append]
      exact foldl_middle_skip
        (fun acc => colorStyleStep_malformed document acc bad h) _ _ _
    · have hfil : (pre ++ bad :: post).filter (fun s => decide (s.style_type = "FILL")) =
          (pre ++ post).filter (fun s => decide (s.style_type = "FILL")) := by
        simp [List.filter_append, List.filter_cons, hp]
      rw [extractColorsStyles, extractColorsStyles, hfil]
  · intro document pre post bad h
    by_cases hp : bad.style_type = "TEXT"
    · have hfil : (pre ++ bad :: post).filter (fun s => decide (s.style_type = "TEXT")) =
          pre.filter (fun s => decide (s.style_type = "TEXT")) ++
            bad :: post.filter (fun s => decide (s.style_type = "TEXT")) := by
        simp [List.filter_append, List.filter_cons, hp]
      rw [extractTypography, extractTypography, hfil, List.filter_append]
      exact foldl_middle_skip
        (fun acc => typographyStyleStep_malformed document acc bad h) _ _ _
    · have hfil : (pre ++ bad :: post).filter (fun s => decide (s.style_type = "TEXT")) =
          (pre ++ post).filter (fun s => decide (s.style_type = "TEXT")) := by
        simp [List.filter_append, List.filter_cons, hp]
      rw [extractTypography, extractTypography, hfil]
  · intro document pre post bad h
    by_cases hp : bad.style_type = "EFFECT"
    · have hfil : (pre ++ bad :: post).filter (fun s => decide (s.style_type = "EFFECT")) =
          pre.filter (fun s => decide (s.style_type = "EFFECT")) ++
            bad :: post.filter (fun s => decide (s.style_type = "EFFECT")) := by
        simp [List.filter_append, List.filter_cons, hp]
      rw [extractEffects, extractEffects, hfil, List.filter_append]
      exact foldl_middle_skip
        (fun acc => effectStyleStep_malformed document acc bad h) _ _ _
    · have hfil : (pre ++ bad :: post).filter (fun s => decide (s.style_type = "EFFECT")) =
          (pre ++ post).filter (fun s => decide (s.style_type = "EFFECT")) := by
        simp [List.filter_append, List.filter_cons, hp]
      rw [extractEffects, extractEffects, hfil]

theorem extraction_skips_malformed_witness :
    extractColorsStyles (.node none [] [] [] none none [])
        ([] ++ ⟨"k1", "Bad/Color", "FILL", none, "9:9"⟩ :: []) =
      extractColorsStyles (.node none [] [] [] none none []) ([] ++ []) :=
  extraction_skips_malformed.1 (.node none [] [] [] none none []) [] []
    ⟨"k1", "Bad/Color", "FILL", none, "9:9"⟩ (Or.inl rfl)

theorem figmaColorToHex_correct_witness :
    figmaColorToHex ⟨1/2, 0, 1, none⟩ = "#8000ff" ∧
    (figmaColorToHex ⟨1/2, 0, 1, none⟩).length = 7 := by
  have h := figmaColorToHex_correct.1 ⟨1/2, 0, 1, none⟩
    (by norm_num) (by norm_num) (by norm_num) (by norm_num) (by norm_num)
    (by norm_num)
  refine ⟨?_, h.2⟩
  rw [h.1]
  norm_num [jsRound_eq_floor]
  decide

/-! ## Variable overwrite on key collision (C4) -/

theorem varFold_lookup (vars : List (String × Variable))
    (colors : List (String × ColorToken)) (k : String)
    (h : ∃ e ∈ vars, e.2.resolvedType = "COLOR" ∧ e.2.valuesByMode ≠ [] ∧
      tokenizeName e.2.name = k) :
    ∃ e ∈ vars, e.2.resolvedType = "COLOR" ∧ tokenizeName e.2.name = k ∧
      ∃ mode c, e.2.valuesByMode.head? = some (mode, c) ∧
        (vars.foldl colorVariableStep colors).lookup k =
          some { name := e.2.name, value := figmaColorToHex c, opacity := none,
                 description := e.2.description, figmaId := some e.1 } := by
  induction vars using List.reverseRecOn with
  | nil => simp at h
  | append_singleton l e ih =>
    rw [List.foldl_append, List.foldl_cons, List.foldl_nil]
    by_cases he : e.2.resolvedType = "COLOR" ∧ e.2.valuesByMode ≠ [] ∧
        tokenizeName e.2.name = k
    · obtain ⟨h1, h2, h3⟩ := he
      obtain ⟨⟨mode, c⟩, hmc⟩ : ∃ p, e.2.valuesByMode.head? = some p := by
        cases hv : e.2.valuesByMode with
        | nil => exact absurd hv h2
        | cons p rest => exact ⟨p, by simp⟩
      refine ⟨e, by simp, h1, h3, mode, c, hmc, ?_⟩
      simp only [colorVariableStep, if_pos h1, hmc]
      rw [← h3]
      exact lookup_recInsert_self _ _ _
    · have hstep : (colorVariableStep (l.foldl colorVariableStep colors) e).lookup k =
          (l.foldl colorVariableStep colors).lookup k := by
        by_cases hc : e.2.resolvedType = "COLOR"
        · cases hv : e.2.valuesByMode.head? with
          | none => simp [colorVariableStep, hc, hv]
          | some mv =>
            have hne : tokenizeName e.2.name ≠ k := by
              intro hk
              refine he ⟨hc, ?_, hk⟩
              intro hnil
              rw [hnil] at hv
              simp at hv
            simp only [colorVariableStep, if_pos hc, hv]
            exact lookup_recInsert_ne _ _ (Ne.symm hne) _ _
        · simp [colorVariableStep, hc]
      have hl : ∃ e' ∈ l, e'.2.resolvedType = "COLOR" ∧ e'.2.valuesByMode ≠ [] ∧
          tokenizeName e'.2.name = k := by
        rcases h with ⟨e', he', hrest⟩
        rcases List.mem_append.mp he' with h' | h'
        · exact ⟨e', h', hrest⟩
        · rw [List.mem_singleton.mp h'] at hrest
          exact absurd hrest he
      obtain ⟨e', he', h1', h3', mode, c, hmc, hlook⟩ := ih hl
      exact ⟨e', List.mem_append_left _ he', h1', h3', mode, c, hmc, by
        rw [hstep]; exact hlook⟩

/-- Claim C4: when a published fill style and a color variable tokenize to
the same canonical key, the final colors map holds the variable-derived
token at that key (variables are folded in after styles and overwrite),
and its value is the hex conversion of the variable's value under the
first mode key of `valuesByMode`. -/
theorem variable_overwrites_style (fd : FileData) (styles : List Style)
    (s : Style) (vars : List (String × Variable))
    (_hs : s ∈ styles) (_hft : s.style_type = "FILL")
    (_hres : ∃ node fill c, findNodeByStyleId fd.document s.node_id = some node ∧
      node.fills.head? = some fill ∧ fill.color = some c)
    (hv : fd.«variables» = some vars)
    (hcol : ∃ e ∈ vars, e.2.resolvedType = "COLOR" ∧ e.2.valuesByMode ≠ [] ∧
      tokenizeName e.2.name = tokenizeName s.name) :
    ∃ e ∈ vars, e.2.resolvedType = "COLOR" ∧
      tokenizeName e.2.name = tokenizeName s.name ∧
      ∃ mode c, e.2.valuesByMode.head? = some (mode, c) ∧
        (extractColors fd styles).lookup (tokenizeName s.name) =
          some { name := e.2.name, value := figmaColorToHex c, opacity := none,
                 description := e.2.description, figmaId := some e.1 } := by
  have hunfold : extractColors fd styles =
      vars.foldl colorVariableStep (extractColorsStyles fd.document styles) := by
    rw [extractColors, extractColorVariables, hv]
  rw [hunfold]
  exact varFold_lookup vars _ _ hcol

theorem variable_overwrites_style_witness :
    (extractColors
        { document := .node none [("fill", "S:1")]
            [{ color := some ⟨1, 0, 0, none⟩, opacity := some (1/2) }] [] none none []
          name := "f"
          «variables» := some [("v1",
            { resolvedType := "COLOR", name := "Brand/Red", description := none,
              valuesByMode := [("m1", ⟨0, 1, 0, none⟩)] })] }
        [{ key := "key1", name := "Brand/Red", style_type := "FILL",
           description := none, node_id := "S:1" }]).lookup "brand-red" =
      some { name := "Brand/Red", value := "#00ff00", opacity := none,
             description := none, figmaId := some "v1" } := by
  have h := variable_overwrites_style
    { document := .node none [("fill", "S:1")]
        [{ color := some ⟨1, 0, 0, none⟩, opacity := some (1/2) }] [] none none []
      name := "f"
      «variables» := some [("v1",
        { resolvedType := "COLOR", name := "Brand/Red", description := none,
          valuesByMode := [("m1", ⟨0, 1, 0, none⟩)] })] }
    [{ key := "key1", name := "Brand/Red", style_type := "FILL",
       description := none, node_id := "S:1" }]
    { key := "key1", name := "Brand/Red", style_type := "FILL",
      description := none, node_id := "S:1" }
    [("v1", { resolvedType := "COLOR", name := "Brand/Red", description := none,
              valuesByMode := [("m1", ⟨0, 1, 0, none⟩)] })]
    (by simp) rfl
    ⟨.node none [("fill", "S:1")]
        [{ color := some ⟨1, 0, 0, none⟩, opacity := some (1/2) }] [] none none [],
      { color := some ⟨1, 0, 0, none⟩, opacity := some (1/2) },
      ⟨1, 0, 0, none⟩, rfl, rfl, rfl⟩
    rfl
    ⟨("v1", { resolvedType := "COLOR", name := "Brand/Red", description := none,
              valuesByMode := [("m1", ⟨0, 1, 0, none⟩)] }),
      by simp, rfl, by simp, rfl⟩
  obtain ⟨e, he, h1, h3, mode, c, hmc, hlook⟩ := h
  rw [List.mem_singleton] at he
  subst he
  have hmc' : (("m1", (⟨0, 1, 0, none⟩ : FigmaColor)) : String × FigmaColor) =
      (mode, c) := by
    have hd : ([("m1", (⟨0, 1, 0, none⟩ : FigmaColor))].head?) =
        some ("m1", (⟨0, 1, 0, none⟩ : FigmaColor)) := rfl
    rw [hd] at hmc
    exact Option.some.inj hmc
  have hc : c = ⟨0, 1, 0, none⟩ := (congrArg Prod.snd hmc').symm
  subst hc
  have hval : figmaColorToHex ⟨0, 1, 0, none⟩ = "#00ff00" := by
    norm_num [figmaColorToHex, jsRound_eq_floor]
    decide
  rw [hval] at hlook
  exact hlook

/-! ## Effect-kind serialization lemmas (C7, C9) -/

theorem twFold_preserves_shadow {k : String}
    {p : List (String × String) × List (String × String)}
    (hk : k ∈ p.1.map Prod.fst) (l : List (String × EffectToken)) :
    k ∈ (l.foldl twEffectStep p).1.map Prod.fst := by
  induction l generalizing p with
  | nil => exact hk
  | cons kv rest ih =>
    rw [List.foldl_cons]
    apply ih
    cases htype : kv.2.type <;> simp only [twEffectStep, htype]
    · exact mem_keys_recInsert_of_mem _ _ hk
    · exact hk
    · exact hk

theorem twFold_preserves_blur {k : String}
    {p : List (String × String) × List (String × String)}
    (hk : k ∈ p.2.map Prod.fst) (l : List (String × EffectToken)) :
    k ∈ (l.foldl twEffectStep p).2.map Prod.fst := by
  induction l generalizing p with
  | nil => exact hk
  | cons kv rest ih =>
    rw [List.foldl_cons]
    apply ih
    cases htype : kv.2.type <;> simp only [twEffectStep, htype]
    · exact hk
    · exact mem_keys_recInsert_of_mem _ _ hk
    · exact hk

theorem twFold_mem_shadow {l : List (String × EffectToken)} {k : String}
    {tok : EffectToken} (h : (k, tok) ∈ l) (ht : tok.type = .shadow)
    (p : List (String × String) × List (String × String)) :
    k ∈ (l.foldl twEffectStep p).1.map Prod.fst := by
  induction l generalizing p with
  | nil => simp at h
  | cons kv rest ih =>
    rw [List.foldl_cons]
    rcases List.mem_cons.mp h with h | h
    · subst h
      apply twFold_preserves_shadow
      simp only [twEffectStep, ht]
      exact mem_keys_recInsert_self _ _ _
    · exact ih h _

theorem twFold_mem_blur {l : List (String × EffectToken)} {k : String}
    {tok : EffectToken} (h : (k, tok) ∈ l) (ht : tok.type = .blur)
    (p : List (String × String) × List (String × String)) :
    k ∈ (l.foldl twEffectStep p).2.map Prod.fst := by
  induction l generalizing p with
  | nil => simp at h
  | cons kv rest ih =>
    rw [List.foldl_cons]
    rcases List.mem_cons.mp h with h | h
    · subst h
      apply twFold_preserves_blur
      simp only [twEffectStep, ht]
      exact mem_keys_recInsert_self _ _ _
    · exact ih h _

theorem twFold_not_mem_shadow {l : List (String × EffectToken)} {k : String}
    (h : ∀ kv ∈ l, kv.1 = k → kv.2.type ≠ .shadow)
    {p : List (String × String) × List (String × String)}
    (hp : k ∉ p.1.map Prod.fst) : k ∉ (l.foldl twEffectStep p).1.map Prod.fst := by
  induction l generalizing p with
  | nil => exact hp
  | cons kv rest ih =>
    rw [List.foldl_cons]
    apply ih (fun x hx => h x (List.mem_cons_of_mem _ hx))
    cases htype : kv.2.type <;> simp only [twEffectStep, htype]
    · have hne : kv.1 ≠ k := fun he =>
        h kv (List.mem_cons_self _ _) he (by rw [htype])
      exact not_mem_keys_recInsert _ hp (fun he => hne he.symm)
    · exact hp
    · exact hp

theorem twFold_not_mem_blur {l : List (String × EffectToken)} {k : String}
    (h : ∀ kv ∈ l, kv.1 = k → kv.2.type ≠ .blur)
    {p : List (String × String) × List (String × String)}
    (hp : k ∉ p.2.map Prod.fst) : k ∉ (l.foldl twEffectStep p).2.map Prod.fst := by
  induction l generalizing p with
  | nil => exact hp
  | cons kv rest ih =>
    rw [List.foldl_cons]
    apply ih (fun x hx => h x (List.mem_cons_of_mem _ hx))
    cases htype : kv.2.type <;> simp only [twEffectStep, htype]
    · exact hp
    · have hne : kv.1 ≠ k := fun he =>
        h kv (List.mem_cons_self _ _) he (by rw [htype])
      exact not_mem_keys_recInsert _ hp (fun he => hne he.symm)
    · exact hp

theorem jsonFold_preserves {k : String} {m : List (String × Json)}
    (hk : k ∈ m.map Prod.fst) (l : List (String × EffectToken)) :
    k ∈ (l.foldl jsonEffectStep m).map Prod.fst := by
  induction l generalizing m with
  | nil => exact hk
  | cons kv rest ih =>
    rw [List.foldl_cons]
    apply ih
    by_cases htype : kv.2.type = .shadow
    · simp only [jsonEffectStep, if_pos htype]
      exact mem_keys_recInsert_of_mem _ _ hk
    · simpa only [jsonEffectStep, if_neg htype] using hk

theorem jsonFold_mem_shadow {l : List (String × EffectToken)} {k : String}
    {tok : EffectToken} (h : (k, tok) ∈ l) (ht : tok.type = .shadow)
    (m : List (String × Json)) :
    k ∈ (l.foldl jsonEffectStep m).map Prod.fst := by
  induction l generalizing m with
  | nil => simp at h
  | cons kv rest ih =>
    rw [List.foldl_cons]
    rcases List.mem_cons.mp h with h | h
    · subst h
      apply jsonFold_preserves
      simp only [jsonEffectStep, if_pos ht]
      exact mem_keys_recInsert_self _ _ _
    · exact ih h _

theorem jsonFold_not_mem {l : List (String × EffectToken)} {k : String}
    (h : ∀ kv ∈ l, kv.1 = k → kv.2.type ≠ .shadow)
    {m : List (String × Json)} (hm : k ∉ m.map Prod.fst) :
    k ∉ (l.foldl jsonEffectStep m).map Prod.fst := by
  induction l generalizing m with
  | nil => exact hm
  | cons kv rest ih =>
    rw [List.foldl_cons]
    apply ih (fun x hx => h x (List.mem_cons_of_mem _ hx))
    by_cases htype : kv.2.type = .shadow
    · have hne : kv.1 ≠ k := fun he => h kv (List.mem_cons_self _ _) he htype
      simp only [jsonEffectStep, if_pos htype]
      exact not_mem_keys_recInsert _ hm (fun he => hne he.symm)
    · simpa only [jsonEffectStep, if_neg htype] using hm

theorem keys_nodup_unique {l : List (String × α)}
    (hn : (l.map Prod.fst).Nodup) {kv kv' : String × α}
    (h1 : kv ∈ l) (h2 : kv' ∈ l) (he : kv.1 = kv'.1) : kv = kv' := by
  induction l with
  | nil => simp at h1
  | cons a rest ih =>
    rw [List.map_cons, List.nodup_cons] at hn
    rcases List.mem_cons.mp h1 with h1' | h1' <;>
      rcases List.mem_cons.mp h2 with h2' | h2'
    · rw [h1', h2']
    · exfalso
      apply hn.1
      rw [← h1', he]
      exact List.mem_map_of_mem Prod.fst h2'
    · exfalso
      apply hn.1
      rw [← h2', ← he]
      exact List.mem_map_of_mem Prod.fst h1'
    · exact ih hn.2 h1' h2'

theorem mem_cssEffectLines {t : DesignTokens} {kv : String × EffectToken}
    (h : kv ∈ t.effects) {line : String}
    (hl : line ∈ cssEffectEntryLines kv) : line ∈ cssVariableLines t := by
  have hne : t.effects.length > 0 :=
    List.length_pos.mpr (List.ne_nil_of_mem h)
  have hin : line ∈ cssEffectLines t := by
    rw [cssEffectLines, if_pos hne]
    exact List.mem_cons_of_mem _
      (List.mem_append_left _ (List.mem_flatMap.mpr ⟨kv, h, hl⟩))
  simp only [cssVariableLines, List.mem_append]
  tauto

theorem mem_scssEffectLines {t : DesignTokens} {kv : String × EffectToken}
    (h : kv ∈ t.effects) {line : String}
    (hl : line ∈ scssEffectEntryLines kv) : line ∈ scssLines t := by
  have hne : t.effects.length > 0 :=
    List.length_pos.mpr (List.ne_nil_of_mem h)
  have hin : line ∈ scssEffectLines t := by
    rw [scssEffectLines, if_pos hne]
    exact List.mem_append_left _
      (List.mem_append_right _ (List.mem_flatMap.mpr ⟨kv, h, hl⟩))
  simp only [scssLines, List.mem_append]
  tauto

/-- Claim C7: an effect token of kind `blur` yields an entry in the CSS
variables, the Tailwind `theme.extend` maps, and the SCSS output, but no
entry in the structured JSON document's `effect` object; a `shadow` token
yields an entry in all four. -/
theorem effect_serializer_asymmetry :
    (∀ (t : DesignTokens) (k : String) (tok : EffectToken),
      (t.effects.map Prod.fst).Nodup → (k, tok) ∈ t.effects →
      tok.type = .blur →
      ("  --blur-" ++ k ++ ": " ++ numStr tok.value.blur ++ "px;")
        ∈ cssVariableLines t ∧
      k ∈ (tailwindExtend t).blur.map Prod.fst ∧
      ("$blur-" ++ k ++ ": " ++ numStr tok.value.blur ++ "px;") ∈ scssLines t ∧
      k ∉ (jsonEffectEntries t).map Prod.fst) ∧
    (∀ (t : DesignTokens) (k : String) (tok : EffectToken),
      (k, tok) ∈ t.effects → tok.type = .shadow →
      ("  --shadow-" ++ k ++ ": " ++ numStr tok.value.offsetX ++ "px "
          ++ numStr tok.value.offsetY ++ "px " ++ numStr tok.value.blur ++ "px "
          ++ numStr tok.value.spread ++ "px " ++ optStr tok.value.color ++ ";")
        ∈ cssVariableLines t ∧
      k ∈ (tailwindExtend t).boxShadow.map Prod.fst ∧
      ("$shadow-" ++ k ++ ": " ++ numStr tok.value.offsetX ++ "px "
          ++ numStr tok.value.offsetY ++ "px " ++ numStr tok.value.blur ++ "px "
          ++ numStr tok.value.spread ++ "px " ++ optStr tok.value.color ++ ";")
        ∈ scssLines t ∧
      k ∈ (jsonEffectEntries t).map Prod.fst) := by
  constructor
  · intro t k tok hnodup hmem ht
    refine ⟨?_, ?_, ?_, ?_⟩
    · exact mem_cssEffectLines hmem (by simp [cssEffectEntryLines, ht])
    · exact twFold_mem_blur hmem ht _
    · exact mem_scssEffectLines hmem (by simp [scssEffectEntryLines, ht])
    · rw [jsonEffectEntries]
      apply jsonFold_not_mem _ (by simp)
      intro kv hkv hk
      have heq : kv = (k, tok) := keys_nodup_unique hnodup hkv hmem hk
      rw [heq, ht]
      simp
  · intro t k tok hmem ht
    refine ⟨?_, ?_, ?_, ?_⟩
    · exact mem_cssEffectLines hmem (by simp [cssEffectEntryLines, ht])
    · exact twFold_mem_shadow hmem ht _
    · exact mem_scssEffectLines hmem (by simp [scssEffectEntryLines, ht])
    · exact jsonFold_mem_shadow hmem ht _

theorem effect_serializer_asymmetry_witness :
    (("  --blur-" ++ "halo" ++ ": " ++ numStr (4 : ℚ) ++ "px;")
      ∈ cssVariableLines
        ⟨[], [], [],
          [("halo", ⟨"Halo", .blur, ⟨none, 0, 0, 4, 0⟩, none, none⟩),
           ("drop", ⟨"Drop", .shadow, ⟨none, 0, 2, 4, 0⟩, none, none⟩)],
          ⟨"1.0.0", "TS", none, none⟩⟩ ∧
      "halo" ∈ (tailwindExtend
        ⟨[], [], [],
          [("halo", ⟨"Halo", .blur, ⟨none, 0, 0, 4, 0⟩, none, none⟩),
           ("drop", ⟨"Drop", .shadow, ⟨none, 0, 2, 4, 0⟩, none, none⟩)],
          ⟨"1.0.0", "TS", none, none⟩⟩).blur.map Prod.fst ∧
      ("$blur-" ++ "halo" ++ ": " ++ numStr (4 : ℚ) ++ "px;")
        ∈ scssLines
        ⟨[], [], [],
          [("halo", ⟨"Halo", .blur, ⟨none, 0, 0, 4, 0⟩, none, none⟩),
           ("drop", ⟨"Drop", .shadow, ⟨none, 0, 2, 4, 0⟩, none, none⟩)],
          ⟨"1.0.0", "TS", none, none⟩⟩ ∧
      "halo" ∉ (jsonEffectEntries
        ⟨[], [], [],
          [("halo", ⟨"Halo", .blur, ⟨none, 0, 0, 4, 0⟩, none, none⟩),
           ("drop", ⟨"Drop", .shadow, ⟨none, 0, 2, 4, 0⟩, none, none⟩)],
          ⟨"1.0.0", "TS", none, none⟩⟩).map Prod.fst) ∧
    "drop" ∈ (jsonEffectEntries
        ⟨[], [], [],
          [("halo", ⟨"Halo", .blur, ⟨none, 0, 0, 4, 0⟩, none, none⟩),
           ("drop", ⟨"Drop", .shadow, ⟨none, 0, 2, 4, 0⟩, none, none⟩)],
          ⟨"1.0.0", "TS", none, none⟩⟩).map Prod.fst := by
  have h1 := effect_serializer_asymmetry.1
    ⟨[], [], [],
      [("halo", ⟨"Halo", .blur, ⟨none, 0, 0, 4, 0⟩, none, none⟩),
       ("drop", ⟨"Drop", .shadow, ⟨none, 0, 2, 4, 0⟩, none, none⟩)],
      ⟨"1.0.0", "TS", none, none⟩⟩
    "halo" ⟨"Halo", .blur, ⟨none, 0, 0, 4, 0⟩, none, none⟩
    (by decide) (by decide) rfl
  have h2 := effect_serializer_asymmetry.2
    ⟨[], [], [],
      [("halo", ⟨"Halo", .blur, ⟨none, 0, 0, 4, 0⟩, none, none⟩),
       ("drop", ⟨"Drop", .shadow, ⟨none, 0, 2, 4, 0⟩, none, none⟩)],
      ⟨"1.0.0", "TS", none, none⟩⟩
    "drop" ⟨"Drop", .shadow, ⟨none, 0, 2, 4, 0⟩, none, none⟩
    (by decide) rfl
  exact ⟨⟨h1.1, h1.2.1, h1.2.2.1, h1.2.2.2⟩, h2.2.2.2⟩

/-! ## No `glow` token is ever produced or serialized (C9) -/

theorem mapEffectType_cases (s : String) :
    mapEffectType s = .shadow ∨ mapEffectType s = .blur := by
  unfold mapEffectType
  split <;> simp

theorem effectFold_types {document : FigmaNode} {l : List Style}
    {acc : List (String × EffectToken)}
    (hacc : ∀ kv ∈ acc, (kv : String × EffectToken).2.type ≠ .glow) :
    ∀ kv ∈ l.foldl (effectStyleStep document) acc, kv.2.type ≠ .glow := by
  induction l generalizing acc with
  | nil => exact hacc
  | cons s rest ih =>
    rw [List.foldl_cons]
    apply ih
    intro kv hkv
    cases hn : findNodeByStyleId document s.node_id with
    | none =>
      simp only [effectStyleStep, hn] at hkv
      exact hacc kv hkv
    | some node =>
      cases hh : node.effects.head? with
      | none =>
        simp only [effectStyleStep, hn, hh] at hkv
        exact hacc kv hkv
      | some effect =>
        simp only [effectStyleStep, hn, hh] at hkv
        rcases mem_recInsert hkv with he | he
        · rw [he]
          rcases mapEffectType_cases effect.type with hm | hm <;> simp [hm]
        · exact hacc kv he

/-- Claim C9: `mapEffectType` only ever returns `shadow` or `blur`
(unrecognized source types fall back to `shadow`), so no extracted effect
token has type `glow`; and a `glow`-typed token, though the data model
admits one, is emitted by none of the four serializers. -/
theorem mapEffectType_no_glow :
    (∀ s : String, mapEffectType s = .shadow ∨ mapEffectType s = .blur) ∧
    (∀ (document : FigmaNode) (styles : List Style) (kv : String × EffectToken),
      kv ∈ extractEffects document styles → kv.2.type ≠ .glow) ∧
    (∀ (t : DesignTokens) (k : String) (tok : EffectToken),
      (t.effects.map Prod.fst).Nodup → (k, tok) ∈ t.effects →
      tok.type = .glow →
      cssEffectEntryLines (k, tok) = [] ∧
      scssEffectEntryLines (k, tok) = [] ∧
      k ∉ (tailwindExtend t).boxShadow.map Prod.fst ∧
      k ∉ (tailwindExtend t).blur.map Prod.fst ∧
      k ∉ (jsonEffectEntries t).map Prod.fst) := by
  refine ⟨mapEffectType_cases, ?_, ?_⟩
  · intro document styles kv hkv
    exact effectFold_types (by simp) kv hkv
  · intro t k tok hnodup hmem ht
    have huniq : ∀ kv ∈ t.effects, kv.1 = k → kv = (k, tok) :=
      fun kv hkv hk => keys_nodup_unique hnodup hkv hmem hk
    refine ⟨by simp [cssEffectEntryLines, ht], by simp [scssEffectEntryLines, ht],
      ?_, ?_, ?_⟩
    · simp only [tailwindExtend]
      apply twFold_not_mem_shadow _ (by simp)
      intro kv hkv hk
      rw [huniq kv hkv hk, ht]
      simp
    · simp only [tailwindExtend]
      apply twFold_not_mem_blur _ (by simp)
      intro kv hkv hk
      rw [huniq kv hkv hk, ht]
      simp
    · rw [jsonEffectEntries]
      apply jsonFold_not_mem _ (by simp)
      intro kv hkv hk
      rw [huniq kv hkv hk, ht]
      simp

theorem mapEffectType_no_glow_witness :
    (mapEffectType "ROTATE" = .shadow ∨ mapEffectType "ROTATE" = .blur) ∧
    (("fx-soft", ⟨"FX/Soft", .blur, ⟨none, 0, 0, 4, 0⟩, none, some "ek"⟩) ∈
        extractEffects
          (.node none [("effect", "E:1")] [] [⟨"LAYER_BLUR", none, none, 4, none⟩]
            none none [])
          [⟨"ek", "FX/Soft", "EFFECT", none, "E:1"⟩] ∧
      (("fx-soft", (⟨"FX/Soft", .blur, ⟨none, 0, 0, 4, 0⟩, none, some "ek"⟩ :
        EffectToken)) : String × EffectToken).2.type ≠ .glow) ∧
    ("glow1" ∉ (jsonEffectEntries
        ⟨[], [], [], [("glow1", ⟨"G", .glow, ⟨none, 0, 0, 1, 0⟩, none, none⟩)],
          ⟨"1.0.0", "TS", none, none⟩⟩).map Prod.fst ∧
      cssEffectEntryLines
        ("glow1", ⟨"G", .glow, ⟨none, 0, 0, 1, 0⟩, none, none⟩) = []) := by
  refine ⟨mapEffectType_no_glow.1 "ROTATE", ⟨by decide, ?_⟩, ⟨?_, ?_⟩⟩
  · exact mapEffectType_no_glow.2.1
      (.node none [("effect", "E:1")] [] [⟨"LAYER_BLUR", none, none, 4, none⟩]
        none none [])
      [⟨"ek", "FX/Soft", "EFFECT", none, "E:1"⟩]
      ("fx-soft", ⟨"FX/Soft", .blur, ⟨none, 0, 0, 4, 0⟩, none, some "ek"⟩)
      (by decide)
  · exact (mapEffectType_no_glow.2.2
      ⟨[], [], [], [("glow1", ⟨"G", .glow, ⟨none, 0, 0, 1, 0⟩, none, none⟩)],
        ⟨"1.0.0", "TS", none, none⟩⟩
      "glow1" ⟨"G", .glow, ⟨none, 0, 0, 1, 0⟩, none, none⟩
      (by decide) (by decide) rfl).2.2.2.2
  · exact (mapEffectType_no_glow.2.2
      ⟨[], [], [], [("glow1", ⟨"G", .glow, ⟨none, 0, 0, 1, 0⟩, none, none⟩)],
        ⟨"1.0.0", "TS", none, none⟩⟩
      "glow1" ⟨"G", .glow, ⟨none, 0, 0, 1, 0⟩, none, none⟩
      (by decide) (by decide) rfl).1

/-! ## Variable-sourced tokens carry no opacity (C10) -/

theorem colorStyleStep_cases (document : FigmaNode)
    (colors : List (String × ColorToken)) (style : Style) :
    colorStyleStep document colors style = colors ∨
    ∃ node fill c, findNodeByStyleId document style.node_id = some node ∧
      node.fills.head? = some fill ∧ fill.color = some c ∧
      colorStyleStep document colors style =
        recInsert (tokenizeName style.name)
          { name := style.name, value := figmaColorToHex c,
            opacity := some (fill.opacity.getD 1),
            description := style.description, figmaId := some style.key } colors := by
  cases hn : findNodeByStyleId document style.node_id with
  | none => exact Or.inl (by simp [colorStyleStep, hn])
  | some node =>
    cases hf : node.fills.head? with
    | none => exact Or.inl (by simp [colorStyleStep, hn, hf])
    | some fill =>
      cases hc : fill.color with
      | none => exact Or.inl (by simp [colorStyleStep, hn, hf, hc])
      | some c =>
        exact Or.inr ⟨node, fill, c, by simp [hn], hf, hc,
          by simp [colorStyleStep, hn, hf, hc]⟩

theorem colorFold_opacity {document : FigmaNode} {l : List Style}
    {acc : List (String × ColorToken)}
    (hacc : ∀ kv ∈ acc, (kv : String × ColorToken).2.opacity.isSome) :
    ∀ kv ∈ l.foldl (colorStyleStep document) acc, kv.2.opacity.isSome := by
  induction l generalizing acc with
  | nil => exact hacc
  | cons s rest ih =>
    rw [List.foldl_cons]
    apply ih
    intro kv hkv
    rcases colorStyleStep_cases document acc s with he | ⟨node, fill, c, _, _, _, he⟩
    · rw [he] at hkv
      exact hacc kv hkv
    · rw [he] at hkv
      rcases mem_recInsert hkv with h' | h'
      · rw [h']
        simp
      · exact hacc kv h'

set_option linter.unusedVariables false in
/-- Claim C10: every token written by `extractColorVariables` carries no
opacity, so after a key collision the final token at that key has
`opacity = none` even if the overwritten style-sourced token had one;
style-sourced tokens always carry an opacity (the fill's own, defaulting
to 1 when absent). -/
theorem variable_tokens_lack_opacity :
    (∀ (document : FigmaNode) (styles : List Style) (kv : String × ColorToken),
      kv ∈ extractColorsStyles document styles → kv.2.opacity.isSome) ∧
    (∀ (document : FigmaNode) (colors : List (String × ColorToken)) (style : Style),
      colorStyleStep document colors style = colors ∨
      ∃ node fill c, findNodeByStyleId document style.node_id = some node ∧
        node.fills.head? = some fill ∧ fill.color = some c ∧
        colorStyleStep document colors style =
          recInsert (tokenizeName style.name)
            { name := style.name, value := figmaColorToHex c,
              opacity := some (fill.opacity.getD 1),
              description := style.description, figmaId := some style.key } colors) ∧
    (∀ (fd : FileData) (colors : List (String × ColorToken))
      (vars : List (String × Variable)) (k : String),
      fd.«variables» = some vars →
      (∃ e ∈ vars, e.2.resolvedType = "COLOR" ∧ e.2.valuesByMode ≠ [] ∧
        tokenizeName e.2.name = k) →
      ∃ tok, (extractColorVariables fd colors).lookup k = some tok ∧
        tok.opacity = none) := by
  refine ⟨?_, colorStyleStep_cases, ?_⟩
  · intro document styles kv hkv
    exact colorFold_opacity (by simp) kv hkv
  · intro fd colors vars k hv h
    rw [extractColorVariables, hv]
    obtain ⟨e, hel, h1, h3, mode, c, hmc, hlook⟩ := varFold_lookup vars colors k h
    exact ⟨_, hlook, rfl⟩

theorem variable_tokens_lack_opacity_witness :
    (("brand-red",
        ({ name := "Brand/Red", value := figmaColorToHex ⟨1, 0, 0, none⟩,
           opacity := some (1 : ℚ),
           description := none, figmaId := some "key1" } : ColorToken)).2.opacity.isSome ∧
    ∃ tok, (extractColorVariables
        { document := .node none [] [] [] none none [], name := "f",
          «variables» := some [("v1",
            { resolvedType := "COLOR", name := "Brand/Red", description := none,
              valuesByMode := [("m1", ⟨0, 1, 0, none⟩)] })] }
        [("brand-red",
          { name := "Brand/Red", value := "#ff0000", opacity := some (1/2 : ℚ),
            description := none, figmaId := some "key1" })]).lookup "brand-red" =
      some tok ∧ tok.opacity = none) := by
  constructor
  · exact variable_tokens_lack_opacity.1
      (.node none [("fill", "S:1")] [{ color := some ⟨1, 0, 0, none⟩, opacity := none }]
        [] none none [])
      [⟨"key1", "Brand/Red", "FILL", none, "S:1"⟩]
      ("brand-red",
        { name := "Brand/Red", value := figmaColorToHex ⟨1, 0, 0, none⟩,
          opacity := some (1 : ℚ),
          description := none, figmaId := some "key1" })
      (List.Mem.head _)
  · exact variable_tokens_lack_opacity.2.2
      { document := .node none [] [] [] none none [], name := "f",
        «variables» := some [("v1",
          { resolvedType := "COLOR", name := "Brand/Red", description := none,
            valuesByMode := [("m1", ⟨0, 1, 0, none⟩)] })] }
      [("brand-red",
        { name := "Brand/Red", value := "#ff0000", opacity := some (1/2 : ℚ),
          description := none, figmaId := some "key1" })]
      [("v1", { resolvedType := "COLOR", name := "Brand/Red", description := none,
                valuesByMode := [("m1", ⟨0, 1, 0, none⟩)] })]
      "brand-red" rfl
      ⟨("v1", { resolvedType := "COLOR", name := "Brand/Red", description := none,
                valuesByMode := [("m1", ⟨0, 1, 0, none⟩)] }),
        by simp, rfl, by simp, rfl⟩

end FigmaSync

namespace FigmaSync

/-! ## Empty categories and headers across the four serializers (C8) -/

set_option maxRecDepth 100000 in
/-- Counterexample to C8 as stated: on a Token Set with every category
empty, the Tailwind output still contains an empty colors section — the
category's section is not omitted — the SCSS output nowhere contains the
source identifier `FILEKEY123`, and the structured JSON output carries no
do-not-hand-edit notice at all. -/
theorem serializer_empty_sections_counterexample :
    strContains
      (toTailwindConfig ⟨[], [], [], [], ⟨"1.0.0", "TS", some "FILEKEY123", none⟩⟩)
      "\"colors\": \x7b\x7d" = true ∧
    strContains
      (toSCSS ⟨[], [], [], [], ⟨"1.0.0", "TS", some "FILEKEY123", none⟩⟩)
      "FILEKEY123" = false ∧
    strContains
      (toJSON ⟨[], [], [], [], ⟨"1.0.0", "TS", some "FILEKEY123", none⟩⟩)
      "DO NOT EDIT" = false := by
  refine ⟨?_, ?_, ?_⟩
  · decide
  · decide
  · decide

/-- Claim C8 (amended): with an empty category, the CSS and SCSS
serializers omit that category's section entirely, while the Tailwind and
JSON serializers keep the category's container object but leave it empty
(never malformed — shown for every category of both); the CSS, Tailwind
and SCSS outputs start with a header block carrying the synchronization
timestamp and the do-not-hand-edit notice; the JSON output's `$metadata`
carries the timestamp but no such notice; and only the CSS and JSON
outputs (not Tailwind or SCSS) carry the source identifier. -/
theorem serializer_empty_sections_amended (t : DesignTokens) :
    (t.colors = [] → cssColorLines t = [] ∧ scssColorLines t = []) ∧
    (t.typography = [] → cssTypographyLines t = [] ∧ scssTypographyLines t = []) ∧
    (t.spacing = [] → cssSpacingLines t = [] ∧ scssSpacingLines t = []) ∧
    (t.effects = [] → cssEffectLines t = [] ∧ scssEffectLines t = []) ∧
    (t.colors = [] → (tailwindExtend t).colors = [] ∧ jsonColorEntries t = []) ∧
    (t.typography = [] → (tailwindExtend t).fontFamily = [] ∧
      (tailwindExtend t).fontSize = [] ∧ jsonTypographyEntries t = []) ∧
    (t.spacing = [] → (tailwindExtend t).spacing = [] ∧
      jsonSpacingEntries t = []) ∧
    (t.effects = [] → (tailwindExtend t).boxShadow = [] ∧
      (tailwindExtend t).blur = [] ∧ jsonEffectEntries t = []) ∧
    (∃ rest, cssVariableLines t =
      [ "/**", " * Origin OS Design Tokens",
        " * Generated: " ++ t.metadata.lastSynced,
        " * Source: Figma file " ++ keyOrUnknown t.metadata.figmaFileKey,
        " * DO NOT EDIT MANUALLY - This file is auto-generated", " */", "",
        ":root \x7b" ] ++ rest) ∧
    (∃ rest, scssLines t =
      [ "//", "// Origin OS Design Tokens (SCSS)",
        "// Generated: " ++ t.metadata.lastSynced,
        "// DO NOT EDIT MANUALLY - This file is auto-generated", "//", "" ] ++ rest) ∧
    (∃ rest, tailwindLines t =
      [ "/**", " * Origin OS Tailwind Design Tokens",
        " * Generated: " ++ t.metadata.lastSynced,
        " * DO NOT EDIT MANUALLY - This file is auto-generated", " */" ] ++ rest) ∧
    (∀ key, t.metadata.figmaFileKey = some key →
      ∃ restEntries, jsonDocument t = .obj
        (("$schema", .str "https://design-tokens.github.io/community-group/format/") ::
         ("$metadata", .obj [
           ("generator", .str "origin-os-figma-sync"),
           ("version", .str t.metadata.version),
           ("lastSynced", .str t.metadata.lastSynced),
           ("source", .obj [("type", .str "figma"), ("fileKey", .str key)])]) ::
         restEntries)) := by
  refine ⟨?_, ?_, ?_, ?_, ?_, ?_, ?_, ?_, ?_, ?_, ?_, ?_⟩
  · intro h
    exact ⟨by simp [cssColorLines, h], by simp [scssColorLines, h]⟩
  · intro h
    exact ⟨by simp [cssTypographyLines, h], by simp [scssTypographyLines, h]⟩
  · intro h
    exact ⟨by simp [cssSpacingLines, h], by simp [scssSpacingLines, h]⟩
  · intro h
    exact ⟨by simp [cssEffectLines, h], by simp [scssEffectLines, h]⟩
  · intro h
    exact ⟨by simp [tailwindExtend, h], by simp [jsonColorEntries, h]⟩
  · intro h
    exact ⟨by simp [tailwindExtend, h], by simp [tailwindExtend, h],
      by simp [jsonTypographyEntries, h]⟩
  · intro h
    exact ⟨by simp [tailwindExtend, h], by simp [jsonSpacingEntries, h]⟩
  · intro h
    exact ⟨by simp [tailwindExtend, h], by simp [tailwindExtend, h],
      by simp [jsonEffectEntries, h]⟩
  · exact ⟨cssColorLines t ++ (cssTypographyLines t ++ (cssSpacingLines t ++
      (cssEffectLines t ++ cssFooterLines))),
      by simp [cssVariableLines, cssHeaderLines, List.append_assoc]⟩
  · exact ⟨scssColorLines t ++ (scssTypographyLines t ++ (scssSpacingLines t ++
      scssEffectLines t)),
      by simp [scssLines, scssHeaderLines, List.append_assoc]⟩
  · exact ⟨["", "/** @type \x7bimport(\"tailwindcss\").Config\x7d */",
      "module.exports = " ++ jsonRender (tailwindConfigJson t) 0],
      by simp [tailwindLines, tailwindHeaderLines]⟩
  · intro key hkey
    exact ⟨[("color", .obj (jsonColorEntries t)),
      ("typography", .obj (jsonTypographyEntries t)),
      ("spacing", .obj (jsonSpacingEntries t)),
      ("effect", .obj (jsonEffectEntries t))],
      by simp [jsonDocument, hkey]⟩

theorem serializer_empty_sections_amended_witness :
    cssColorLines ⟨[], [], [], [], ⟨"1.0.0", "TS", some "FILEKEY123", none⟩⟩ = [] ∧
    (tailwindExtend ⟨[], [], [], [], ⟨"1.0.0", "TS", some "FILEKEY123", none⟩⟩).colors = [] ∧
    (tailwindExtend ⟨[], [], [], [], ⟨"1.0.0", "TS", some "FILEKEY123", none⟩⟩).fontSize = [] ∧
    (tailwindExtend ⟨[], [], [], [], ⟨"1.0.0", "TS", some "FILEKEY123", none⟩⟩).spacing = [] ∧
    jsonTypographyEntries ⟨[], [], [], [], ⟨"1.0.0", "TS", some "FILEKEY123", none⟩⟩ = [] ∧
    jsonEffectEntries ⟨[], [], [], [], ⟨"1.0.0", "TS", some "FILEKEY123", none⟩⟩ = [] := by
  have h := serializer_empty_sections_amended
    ⟨[], [], [], [], ⟨"1.0.0", "TS", some "FILEKEY123", none⟩⟩
  exact ⟨(h.1 rfl).1, (h.2.2.2.2.1 rfl).1, (h.2.2.2.2.2.1 rfl).2.1,
    (h.2.2.2.2.2.2.1 rfl).1, (h.2.2.2.2.2.1 rfl).2.2, (h.2.2.2.2.2.2.2.1 rfl).2.2⟩

end FigmaSync
